import Mathlib

/-!
Verification of the technical-indicator engine of the stock-surge repository
(`src/backend/app/stocks/technical_indicators.py`).

Shallow embedding: a pandas float64 cell is modelled as `PVal`, an exact
rational extended with `+inf`, `-inf` and `NaN` (pandas propagates IEEE
special values instead of raising on degenerate arithmetic); a pandas
`Series` is a `List` of cells; the fetched OHLCV frame is four columns of
clean (NaN-free) rationals.  Exact rational arithmetic idealises IEEE
rounding; every property checked here concerns exact zeros, null/non-null
status or algebraic identities, which IEEE arithmetic also decides exactly.
`.iloc[-1]` on an empty series raises, which is modelled by `Except`;
`try/except` blocks become `runGuard`.  The `timestamp` report field (wall
clock) and the network fetch are outside the embedding: the engine is
modelled from the fetched frame onward.
-/

namespace StockSurge

/-- Model of one numpy/pandas float64 cell: an exact rational, +∞, -∞ or NaN. -/
inductive PVal where
  | num (q : ℚ)
  | pinf
  | ninf
  | nan
  deriving DecidableEq

namespace PVal

/-- IEEE negation. -/
def neg : PVal → PVal
  | num q => num (-q)
  | pinf => ninf
  | ninf => pinf
  | nan => nan

/-- IEEE addition as numpy implements it (NaN propagates, ∞ + (-∞) = NaN). -/
def add : PVal → PVal → PVal
  | nan, _ => nan
  | _, nan => nan
  | num a, num b => num (a + b)
  | num _, pinf => pinf
  | num _, ninf => ninf
  | pinf, num _ => pinf
  | ninf, num _ => ninf
  | pinf, pinf => pinf
  | ninf, ninf => ninf
  | pinf, ninf => nan
  | ninf, pinf => nan

/-- IEEE subtraction. -/
def sub (a b : PVal) : PVal := a.add b.neg

/-- IEEE multiplication (0 * ∞ = NaN). -/
def mul : PVal → PVal → PVal
  | nan, _ => nan
  | _, nan => nan
  | num a, num b => num (a * b)
  | num a, pinf => if 0 < a then pinf else if a < 0 then ninf else nan
  | num a, ninf => if 0 < a then ninf else if a < 0 then pinf else nan
  | pinf, num b => if 0 < b then pinf else if b < 0 then ninf else nan
  | ninf, num b => if 0 < b then ninf else if b < 0 then pinf else nan
  | pinf, pinf => pinf
  | ninf, ninf => pinf
  | pinf, ninf => ninf
  | ninf, pinf => ninf

/-- Division as numpy broadcasts it over a Series: finite/0 gives a signed
infinity, 0/0 gives NaN (numpy emits a warning, not an exception). -/
def div : PVal → PVal → PVal
  | nan, _ => nan
  | _, nan => nan
  | num a, num b =>
      if b = 0 then (if 0 < a then pinf else if a < 0 then ninf else nan)
      else num (a / b)
  | num _, pinf => num 0
  | num _, ninf => num 0
  | pinf, num b => if b < 0 then ninf else pinf
  | ninf, num b => if b < 0 then pinf else ninf
  | pinf, pinf => nan
  | pinf, ninf => nan
  | ninf, pinf => nan
  | ninf, ninf => nan

/-- IEEE absolute value. -/
def abs : PVal → PVal
  | num q => num |q|
  | nan => nan
  | _ => pinf

/-- IEEE strict less-than: every comparison involving NaN is false. -/
def ltB : PVal → PVal → Bool
  | nan, _ => false
  | _, nan => false
  | num a, num b => decide (a < b)
  | num _, pinf => true
  | num _, ninf => false
  | pinf, num _ => false
  | ninf, num _ => true
  | pinf, pinf => false
  | ninf, ninf => false
  | ninf, pinf => true
  | pinf, ninf => false

/-- IEEE strict greater-than. -/
def gtB (a b : PVal) : Bool := ltB b a

/-- Test for NaN. -/
def isNan : PVal → Bool
  | nan => true
  | _ => false

/-- Test for a finite value. -/
def isNum : PVal → Bool
  | num _ => true
  | _ => false

/-- Underlying rational of a finite value (junk elsewhere). -/
def toQ : PVal → ℚ
  | num q => q
  | _ => 0

/-- Binary max skipping NaN, as `DataFrame.max(axis=1)` (skipna=True) folds a
row: a NaN argument is ignored, an all-NaN row stays NaN. -/
def maxSkipNa : PVal → PVal → PVal
  | nan, b => b
  | a, nan => a
  | pinf, _ => pinf
  | _, pinf => pinf
  | ninf, b => b
  | a, ninf => a
  | num x, num y => num (max x y)

end PVal

/-- Sum of a list of cells (numpy summation semantics via `PVal.add`). -/
def sumPV (l : List PVal) : PVal := l.foldr PVal.add (PVal.num 0)

/-- Model of `Series.diff()`: NaN first, then consecutive differences. -/
def diffP : List ℚ → List PVal
  | [] => []
  | x :: xs => PVal.nan :: List.zipWith (fun a b => PVal.num (a - b)) xs (x :: xs)

/-- Model of `Series.shift()` (shift by one): NaN first, last value dropped. -/
def shiftP : List ℚ → List PVal
  | [] => []
  | x :: xs => PVal.nan :: ((x :: xs).dropLast.map PVal.num)

/-- Model of `delta.where(delta > 0, 0)` on one cell: kept where the
condition holds, replaced by 0 where it fails — including on NaN, since
`NaN > 0` is false.  This is how `calculate_rsi` silently turns the
undefined first delta into a zero gain. -/
def whereGtZero (v : PVal) : PVal := if v.gtB (PVal.num 0) then v else PVal.num 0

/-- Model of `delta.where(delta < 0, 0)` on one cell. -/
def whereLtZero (v : PVal) : PVal := if v.ltB (PVal.num 0) then v else PVal.num 0

/-- Model of `Series.rolling(window=w).AGG()` with the default
`min_periods = w`: position `i` holds the aggregate of the trailing
`w`-cell slice once `i + 1 ≥ w`, and NaN before that. -/
def rollingApply (w : Nat) (f : List PVal → PVal) (l : List PVal) : List PVal :=
  (List.range l.length).map
    (fun i => if w ≤ i + 1 then f ((l.take (i + 1)).drop (i + 1 - w)) else PVal.nan)

/-- Rolling-mean aggregate: NaN if any cell of the window is NaN (the
non-NaN count then falls below `min_periods`), else the arithmetic mean. -/
def meanWin (win : List PVal) : PVal :=
  if win.any PVal.isNan then PVal.nan
  else (sumPV win).div (PVal.num (win.length : ℚ))

/-- Sample variance (N-1 denominator) of a rational window, as
`Series.rolling(w).std()` squares out to. -/
def sampleVar (l : List ℚ) : ℚ :=
  let n : ℚ := (l.length : ℚ)
  let m : ℚ := (l.foldr (· + ·) 0) / n
  (l.foldr (fun x acc => (x - m) ^ 2 + acc) 0) / (n - 1)

/-- Rolling sample-standard-deviation aggregate.  `Rat.sqrt` is exact on
perfect squares; every claim below evaluates it only at variance 0, where
it agrees exactly with IEEE `sqrt`. -/
def stdWin (win : List PVal) : PVal :=
  if win.all PVal.isNum then PVal.num (Rat.sqrt (sampleVar (win.map PVal.toQ)))
  else PVal.nan

/-- Rolling-min aggregate (windows of the clean low column are all finite;
a NaN window yields NaN as pandas does). -/
def minWin (win : List PVal) : PVal :=
  if win.all PVal.isNum then
    match win.map PVal.toQ with
    | [] => PVal.nan
    | q :: qs => PVal.num (qs.foldl min q)
  else PVal.nan

/-- Rolling-max aggregate. -/
def maxWin (win : List PVal) : PVal :=
  if win.all PVal.isNum then
    match win.map PVal.toQ with
    | [] => PVal.nan
    | q :: qs => PVal.num (qs.foldl max q)
  else PVal.nan

/-- Tail recursion of `ewmQ`: `ema[t] = a*x[t] + (1-a)*ema[t-1]`. -/
def ewmGo (a : ℚ) (prev : ℚ) : List ℚ → List ℚ
  | [] => []
  | x :: xs => (a * x + (1 - a) * prev) :: ewmGo a (a * x + (1 - a) * prev) xs

/-- Model of `Series.ewm(span=s, adjust=False).mean()` on a NaN-free series:
smoothing factor `2/(s+1)`, seeded with the first observation. -/
def ewmQ (span : ℚ) : List ℚ → List ℚ
  | [] => []
  | x :: xs => x :: ewmGo (2 / (span + 1)) x xs

/-- Model of `.iloc[-1]`: the last cell, raising `IndexError` when empty. -/
def lastE {α : Type} (l : List α) : Except String α :=
  match l.getLast? with
  | some v => Except.ok v
  | none => Except.error "single positional indexer is out-of-bounds"

/-- Model of `float(x) if not pd.isna(x) else None`. -/
def pyFloatOpt (v : PVal) : Option PVal :=
  if v.isNan then none else some v

/-- Model of a Python `try: BODY except Exception: return DFLT` wrapper. -/
def runGuard {α : Type} (e : Except String α) (dflt : α) : α :=
  match e with
  | Except.ok v => v
  | Except.error _ => dflt

/-- Python truthiness of an `Optional[float]`: `None` and `0.0` are falsy,
NaN and the infinities are truthy.  The source gates its signal labels and
derived ratios on truthiness, not on an explicit `is not None` test. -/
def pyTruthy : Option PVal → Bool
  | none => false
  | some (PVal.num q) => decide (q ≠ 0)
  | some _ => true

/-- Output shape of `calculate_macd`. -/
structure MacdGroup where
  macd : Option PVal
  signal : Option PVal
  histogram : Option PVal
  deriving DecidableEq

/-- Output shape of `calculate_moving_averages`. -/
structure SmaGroup where
  sma_20 : Option PVal
  sma_50 : Option PVal
  sma_100 : Option PVal
  sma_200 : Option PVal
  deriving DecidableEq

/-- Output shape of `calculate_ema`. -/
structure EmaGroup where
  ema_12 : Option PVal
  ema_26 : Option PVal
  ema_50 : Option PVal
  deriving DecidableEq

/-- Output shape of `calculate_bollinger_bands`. -/
structure BollGroup where
  upper : Option PVal
  middle : Option PVal
  lower : Option PVal
  deriving DecidableEq

/-- Output shape of `calculate_stochastic`. -/
structure StochGroup where
  k : Option PVal
  d : Option PVal
  deriving DecidableEq

/-- Body of `calculate_rsi` (everything inside its `try`), lines 15-22 of
the source: diff, where-filled gain/loss, 14-bar rolling means, RS, RSI,
last cell. -/
def rsiBody (period : Nat) (data : List ℚ) : Except String (Option PVal) := do
  let delta := diffP data
  let gain := rollingApply period meanWin (delta.map whereGtZero)
  let loss := rollingApply period meanWin (delta.map (fun v => (whereLtZero v).neg))
  let rs := List.zipWith PVal.div gain loss
  let rsi := rs.map (fun r => (PVal.num 100).sub ((PVal.num 100).div ((PVal.num 1).add r)))
  let last ← lastE rsi
  pure (pyFloatOpt last)

/-- Source `calculate_rsi(data, period=14)`: the guarded body, `None` on an
internal exception. -/
def calculate_rsi (data : List ℚ) (period : Nat) : Option PVal :=
  runGuard (rsiBody period data) none

/-- Body of `calculate_macd` (lines 30-40): two EWMs of the close, their
difference, a 9-span EWM signal line and the elementwise histogram.  On a
clean close series none of the three last cells can be NA, so the source's
`pd.isna` guards reduce to `some`. -/
def macdBody (fast slow signal : ℚ) (data : List ℚ) : Except String MacdGroup := do
  let exp1 := ewmQ fast data
  let exp2 := ewmQ slow data
  let macd := List.zipWith (fun a b => a - b) exp1 exp2
  let signalLine := ewmQ signal macd
  let histogram := List.zipWith (fun a b => a - b) macd signalLine
  let m ← lastE macd
  let s ← lastE signalLine
  let h ← lastE histogram
  pure ⟨some (PVal.num m), some (PVal.num s), some (PVal.num h)⟩

/-- Source `calculate_macd(data, fast=12, slow=26, signal=9)`. -/
def calculate_macd (data : List ℚ) (fast slow signal : ℚ) : MacdGroup :=
  runGuard (macdBody fast slow signal data) ⟨none, none, none⟩

/-- Body of `calculate_moving_averages` (lines 48-53): each SMA is the last
cell of a rolling mean, gated on an explicit length test (evaluated before
the indexer, as the Python conditional expression is). -/
def smaBody (data : List ℚ) : Except String SmaGroup :=
  Except.bind
    (if 20 ≤ data.length
     then Except.map some (lastE (rollingApply 20 meanWin (data.map PVal.num)))
     else pure none)
    (fun s20 => Except.bind
      (if 50 ≤ data.length
       then Except.map some (lastE (rollingApply 50 meanWin (data.map PVal.num)))
       else pure none)
      (fun s50 => Except.bind
        (if 100 ≤ data.length
         then Except.map some (lastE (rollingApply 100 meanWin (data.map PVal.num)))
         else pure none)
        (fun s100 => Except.bind
          (if 200 ≤ data.length
           then Except.map some (lastE (rollingApply 200 meanWin (data.map PVal.num)))
           else pure none)
          (fun s200 => Except.ok ⟨s20, s50, s100, s200⟩))))

/-- Source `calculate_moving_averages(data)`. -/
def calculate_moving_averages (data : List ℚ) : SmaGroup :=
  runGuard (smaBody data) ⟨none, none, none, none⟩

/-- Body of `calculate_ema` (lines 61-65): the source gates every EMA on an
explicit length test against its span, exactly like the SMAs — so, unlike
the bare EWM primitive, the reported EMAs do have a null state. -/
def emaBody (data : List ℚ) : Except String EmaGroup :=
  Except.bind
    (if 12 ≤ data.length
     then Except.map (fun q => some (PVal.num q)) (lastE (ewmQ 12 data)) else pure none)
    (fun e12 => Except.bind
      (if 26 ≤ data.length
       then Except.map (fun q => some (PVal.num q)) (lastE (ewmQ 26 data)) else pure none)
      (fun e26 => Except.bind
        (if 50 ≤ data.length
         then Except.map (fun q => some (PVal.num q)) (lastE (ewmQ 50 data)) else pure none)
        (fun e50 => Except.ok ⟨e12, e26, e50⟩)))

/-- Source `calculate_ema(data)`. -/
def calculate_ema (data : List ℚ) : EmaGroup :=
  runGuard (emaBody data) ⟨none, none, none⟩

/-- Body of `calculate_bollinger_bands` (lines 73-83). -/
def bollingerBody (period : Nat) (stdDev : ℚ) (data : List ℚ) : Except String BollGroup := do
  let dm := data.map PVal.num
  let sma := rollingApply period meanWin dm
  let std := rollingApply period stdWin dm
  let upper := List.zipWith PVal.add sma (std.map (fun v => v.mul (PVal.num stdDev)))
  let lower := List.zipWith PVal.sub sma (std.map (fun v => v.mul (PVal.num stdDev)))
  let u ← lastE upper
  let m ← lastE sma
  let l ← lastE lower
  pure ⟨pyFloatOpt u, pyFloatOpt m, pyFloatOpt l⟩

/-- Source `calculate_bollinger_bands(data, period=20, std_dev=2)`. -/
def calculate_bollinger_bands (data : List ℚ) (period : Nat) (stdDev : ℚ) : BollGroup :=
  runGuard (bollingerBody period stdDev data) ⟨none, none, none⟩

/-- Body of `calculate_stochastic` (lines 91-99): `%K` divides by the
rolling high-low range — zero range gives 0/0, i.e. NaN, not an
exception. -/
def stochasticBody (kPeriod dPeriod : Nat) (high low close : List ℚ) :
    Except String StochGroup := do
  let lowestLow := rollingApply kPeriod minWin (low.map PVal.num)
  let highestHigh := rollingApply kPeriod maxWin (high.map PVal.num)
  let kPercent := List.zipWith
    (fun c lh => (PVal.num 100).mul ((PVal.sub c lh.1).div (PVal.sub lh.2 lh.1)))
    (close.map PVal.num) (List.zip lowestLow highestHigh)
  let dPercent := rollingApply dPeriod meanWin kPercent
  let k ← lastE kPercent
  let d ← lastE dPercent
  pure ⟨pyFloatOpt k, pyFloatOpt d⟩

/-- Source `calculate_stochastic(high, low, close, k_period=14, d_period=3)`. -/
def calculate_stochastic (high low close : List ℚ) (kPeriod dPeriod : Nat) : StochGroup :=
  runGuard (stochasticBody kPeriod dPeriod high low close) ⟨none, none⟩

/-- Body of `calculate_atr` (lines 108-115): the rowwise `DataFrame.max`
skips NaN, so the first row's true range silently falls back to
`high - low` instead of staying undefined. -/
def atrBody (period : Nat) (high low close : List ℚ) : Except String (Option PVal) := do
  let prevClose := shiftP close
  let tr1 := List.zipWith (fun h l => PVal.num (h - l)) high low
  let tr2 := List.zipWith (fun h c => ((PVal.num h).sub c).abs) high prevClose
  let tr3 := List.zipWith (fun l c => ((PVal.num l).sub c).abs) low prevClose
  let tr := List.zipWith PVal.maxSkipNa (List.zipWith PVal.maxSkipNa tr1 tr2) tr3
  let atr := rollingApply period meanWin tr
  let last ← lastE atr
  pure (pyFloatOpt last)

/-- Source `calculate_atr(high, low, close, period=14)`. -/
def calculate_atr (high low close : List ℚ) (period : Nat) : Option PVal :=
  runGuard (atrBody period high low close) none

/-- Fetched OHLCV frame: the four columns `get_technical_indicators`
reads.  A well-formed pandas frame has equal-length columns; claims whose
proof needs rectangularity assume it explicitly. -/
structure Hist where
  high : List ℚ
  low : List ℚ
  close : List ℚ
  volume : List ℚ
  deriving DecidableEq

/-- The `indicators.rsi` sub-dictionary. -/
structure RsiGroup where
  value : Option PVal
  signal : Option String
  deriving DecidableEq

/-- The `indicators.moving_averages` sub-dictionary. -/
structure MovingAveragesGroup where
  sma : SmaGroup
  ema : EmaGroup
  price_vs_sma20 : Option PVal
  price_vs_sma50 : Option PVal
  price_vs_sma200 : Option PVal
  deriving DecidableEq

/-- The `indicators.bollinger_bands` sub-dictionary (bands plus label). -/
structure BollingerOut where
  upper : Option PVal
  middle : Option PVal
  lower : Option PVal
  position : Option String
  deriving DecidableEq

/-- The `indicators.volume` sub-dictionary. -/
structure VolumeGroup where
  current : PVal
  average : PVal
  ratio : Option PVal
  deriving DecidableEq

/-- The full `indicators` dictionary. -/
structure Indicators where
  rsi : RsiGroup
  macd : MacdGroup
  moving_averages : MovingAveragesGroup
  bollinger_bands : BollingerOut
  stochastic : StochGroup
  atr : Option PVal
  volume : VolumeGroup
  deriving DecidableEq

/-- The report dictionary (sans the wall-clock `timestamp` field, which a
shallow embedding of pure computation does not carry). -/
structure Report where
  ticker : String
  period : String
  current_price : PVal
  indicators : Indicators
  deriving DecidableEq

/-- Return value of `get_technical_indicators`: the report dictionary or
the error-shaped dictionary `{"error": msg, "ticker": t, "period": p}`. -/
inductive TIResult where
  | report (r : Report)
  | err (msg ticker period : String)
  deriving DecidableEq

/-- The RSI signal label (source lines 173-177): `rsi and rsi < 30` uses
Python truthiness, so `rsi = 0.0` falls through every branch to `None`. -/
def rsiSignal (rsi : Option PVal) : Option String :=
  if pyTruthy rsi && PVal.ltB (rsi.getD PVal.nan) (PVal.num 30) then some "oversold"
  else if pyTruthy rsi && PVal.ltB (PVal.num 70) (rsi.getD PVal.nan) then some "overbought"
  else if pyTruthy rsi then some "neutral"
  else none

/-- One `price_vs_smaN` field (source lines 161-163), truthiness-gated. -/
def priceVs (currentPrice : PVal) (sma : Option PVal) : Option PVal :=
  if pyTruthy sma then
    some (((currentPrice.sub (sma.getD PVal.nan)).div (sma.getD PVal.nan)).mul (PVal.num 100))
  else none

/-- The Bollinger position label (source lines 189-193). -/
def bollPosition (currentPrice : PVal) (b : BollGroup) : Option String :=
  if pyTruthy b.upper && PVal.ltB (b.upper.getD PVal.nan) currentPrice then some "above_upper"
  else if pyTruthy b.lower && PVal.ltB currentPrice (b.lower.getD PVal.nan) then some "below_lower"
  else if pyTruthy b.upper && pyTruthy b.lower then some "within_bands"
  else none

/-- Model of `Series.mean()` over the whole column: NaN on an empty
series (pandas returns NaN there rather than raising), else the mean. -/
def meanQ (l : List ℚ) : PVal :=
  match l with
  | [] => PVal.nan
  | _ :: _ => PVal.num ((l.foldr (· + ·) 0) / (l.length : ℚ))

/-- The seven guarded calculator bodies the aggregator dispatches to.
`get_technical_indicators` is stated parametrically in them so that
fault-isolation (claim C9) can quantify over a fault in any single
calculator; `defaultBodies` instantiates them with the source's bodies. -/
structure CalcBodies where
  rsiB : List ℚ → Except String (Option PVal)
  macdB : List ℚ → Except String MacdGroup
  smaB : List ℚ → Except String SmaGroup
  emaB : List ℚ → Except String EmaGroup
  bollB : List ℚ → Except String BollGroup
  stochB : List ℚ → List ℚ → List ℚ → Except String StochGroup
  atrB : List ℚ → List ℚ → List ℚ → Except String (Option PVal)

/-- The source's seven calculator bodies with their call-site parameters
(RSI 14, MACD 12/26/9, Bollinger 20/2, stochastic 14/3, ATR 14). -/
def defaultBodies : CalcBodies :=
  ⟨rsiBody 14, macdBody 12 26 9, smaBody, emaBody, bollingerBody 20 2,
   stochasticBody 14 3, atrBody 14⟩

/-- Everything inside the outer `try` of `get_technical_indicators` after
the fetch (lines 136-203): the empty-frame early return, the current
price, the seven independently guarded calculators, the volume metrics,
the derived labels, and the report assembly.  An uncaught exception
anywhere in here (only the two bare `.iloc[-1]` indexers can raise) is an
`Except.error`. -/
def outerBody (B : CalcBodies) (ticker period : String) (hist : Hist) :
    Except String TIResult :=
  if hist.close.isEmpty then
    pure (TIResult.err "No historical data available" ticker period)
  else do
    let currentPrice ← Except.map PVal.num (lastE hist.close)
    let rsi := runGuard (B.rsiB hist.close) none
    let macdData := runGuard (B.macdB hist.close) ⟨none, none, none⟩
    let sma := runGuard (B.smaB hist.close) ⟨none, none, none, none⟩
    let ema := runGuard (B.emaB hist.close) ⟨none, none, none⟩
    let bollinger := runGuard (B.bollB hist.close) ⟨none, none, none⟩
    let stochastic := runGuard (B.stochB hist.high hist.low hist.close) ⟨none, none⟩
    let atr := runGuard (B.atrB hist.high hist.low hist.close) none
    let avgVolume := meanQ hist.volume
    let currentVolume ← Except.map PVal.num (lastE hist.volume)
    let volumeRatio :=
      if PVal.ltB (PVal.num 0) avgVolume then some (currentVolume.div avgVolume) else none
    pure (TIResult.report
      ⟨ticker, period, currentPrice,
       ⟨⟨rsi, rsiSignal rsi⟩,
        macdData,
        ⟨sma, ema, priceVs currentPrice sma.sma_20, priceVs currentPrice sma.sma_50,
         priceVs currentPrice sma.sma_200⟩,
        ⟨bollinger.upper, bollinger.middle, bollinger.lower,
         bollPosition currentPrice bollinger⟩,
        stochastic,
        atr,
        ⟨currentVolume, avgVolume, volumeRatio⟩⟩⟩)

/-- `get_technical_indicators` with explicit calculator bodies: the outer
`try/except` converts any uncaught fault into the error-shaped dictionary
(lines 205-210), echoing ticker and period. -/
def get_technical_indicators_with (B : CalcBodies) (ticker period : String)
    (hist : Hist) : TIResult :=
  match outerBody B ticker period hist with
  | Except.ok r => r
  | Except.error msg => TIResult.err msg ticker period

/-- Source `get_technical_indicators(ticker, period="3mo")`, modelled from
the fetched frame onward (the yfinance call is the excluded collaborator).
A total function: it returns a report-shaped or error-shaped value and can
never propagate an exception. -/
def get_technical_indicators (ticker period : String) (hist : Hist) : TIResult :=
  get_technical_indicators_with defaultBodies ticker period hist

/-- The `indicators` dictionary of a report-shaped result. -/
def TIResult.indicators? : TIResult → Option Indicators
  | TIResult.report r => some r.indicators
  | TIResult.err _ _ _ => none

/-- The `rsi` group of a report-shaped result. -/
def TIResult.rsi? (t : TIResult) : Option RsiGroup := t.indicators?.map Indicators.rsi

/-- The `macd` group of a report-shaped result. -/
def TIResult.macd? (t : TIResult) : Option MacdGroup := t.indicators?.map Indicators.macd

/-- The `moving_averages.sma` group of a report-shaped result. -/
def TIResult.sma? (t : TIResult) : Option SmaGroup :=
  t.indicators?.map (fun i => i.moving_averages.sma)

/-- The `moving_averages.ema` group of a report-shaped result. -/
def TIResult.ema? (t : TIResult) : Option EmaGroup :=
  t.indicators?.map (fun i => i.moving_averages.ema)

/-- The `moving_averages` group of a report-shaped result. -/
def TIResult.movingAverages? (t : TIResult) : Option MovingAveragesGroup :=
  t.indicators?.map Indicators.moving_averages

/-- The `bollinger_bands` group of a report-shaped result. -/
def TIResult.boll? (t : TIResult) : Option BollingerOut :=
  t.indicators?.map Indicators.bollinger_bands

/-- The `stochastic` group of a report-shaped result. -/
def TIResult.stoch? (t : TIResult) : Option StochGroup :=
  t.indicators?.map Indicators.stochastic

/-- The `atr` field of a report-shaped result. -/
def TIResult.atr? (t : TIResult) : Option (Option PVal) :=
  t.indicators?.map Indicators.atr

/-- The `volume` group of a report-shaped result. -/
def TIResult.volume? (t : TIResult) : Option VolumeGroup :=
  t.indicators?.map Indicators.volume

/-- The reported `rsi.value`, flattened: `none` when the result is
error-shaped or the value itself is null. -/
def TIResult.rsiValue? (t : TIResult) : Option PVal := t.rsi?.bind RsiGroup.value

/-- Replace only the RSI body (fault-injection helper for claim C9). -/
def CalcBodies.withRsiB (B : CalcBodies)
    (f : List ℚ → Except String (Option PVal)) : CalcBodies :=
  ⟨f, B.macdB, B.smaB, B.emaB, B.bollB, B.stochB, B.atrB⟩

/-- Replace only the MACD body. -/
def CalcBodies.withMacdB (B : CalcBodies)
    (f : List ℚ → Except String MacdGroup) : CalcBodies :=
  ⟨B.rsiB, f, B.smaB, B.emaB, B.bollB, B.stochB, B.atrB⟩

/-- Replace only the SMA body. -/
def CalcBodies.withSmaB (B : CalcBodies)
    (f : List ℚ → Except String SmaGroup) : CalcBodies :=
  ⟨B.rsiB, B.macdB, f, B.emaB, B.bollB, B.stochB, B.atrB⟩

/-- Replace only the EMA body. -/
def CalcBodies.withEmaB (B : CalcBodies)
    (f : List ℚ → Except String EmaGroup) : CalcBodies :=
  ⟨B.rsiB, B.macdB, B.smaB, f, B.bollB, B.stochB, B.atrB⟩

/-- Replace only the Bollinger body. -/
def CalcBodies.withBollB (B : CalcBodies)
    (f : List ℚ → Except String BollGroup) : CalcBodies :=
  ⟨B.rsiB, B.macdB, B.smaB, B.emaB, f, B.stochB, B.atrB⟩

/-- Replace only the stochastic body. -/
def CalcBodies.withStochB (B : CalcBodies)
    (f : List ℚ → List ℚ → List ℚ → Except String StochGroup) : CalcBodies :=
  ⟨B.rsiB, B.macdB, B.smaB, B.emaB, B.bollB, f, B.atrB⟩

/-- Replace only the ATR body. -/
def CalcBodies.withAtrB (B : CalcBodies)
    (f : List ℚ → List ℚ → List ℚ → Except String (Option PVal)) : CalcBodies :=
  ⟨B.rsiB, B.macdB, B.smaB, B.emaB, B.bollB, B.stochB, f⟩

/-- Thirty strictly rising daily closes 100.00 .. 129.00 (step 1.00), the
end-to-end scenario of the spec: all gains, no losses. -/
def risingCloses : List ℚ :=
  [100, 101, 102, 103, 104, 105, 106, 107, 108, 109,
   110, 111, 112, 113, 114, 115, 116, 117, 118, 119,
   120, 121, 122, 123, 124, 125, 126, 127, 128, 129]

/-- The corresponding OHLCV frame (flat bars, constant volume 1000000). -/
def risingHist : Hist :=
  ⟨risingCloses, risingCloses, risingCloses, List.replicate 30 1000000⟩

/-- Fourteen alternating closes: a 14-bar series with both gains and
losses, exercising the RSI window that is already full at 14 bars. -/
def zigzagCloses : List ℚ := [2, 1, 2, 1, 2, 1, 2, 1, 2, 1, 2, 1, 2, 1]

/-- The corresponding OHLCV frame. -/
def zigzagHist : Hist :=
  ⟨zigzagCloses, zigzagCloses, zigzagCloses, List.replicate 14 1⟩

/-- Fifteen strictly falling closes: all losses, no gains, driving RSI to
exactly zero. -/
def fallingCloses : List ℚ :=
  [15, 14, 13, 12, 11, 10, 9, 8, 7, 6, 5, 4, 3, 2, 1]

/-- The corresponding OHLCV frame. -/
def fallingHist : Hist :=
  ⟨fallingCloses, fallingCloses, fallingCloses, List.replicate 15 1⟩

/-- Proof-side closed form of the report `outerBody` assembles when both
bare indexers succeed (`c`, `v` the last close and volume cells). -/
def assembleFrom (B : CalcBodies) (t p : String) (h : Hist) (c v : ℚ) : Report :=
  ⟨t, p, PVal.num c,
   ⟨⟨runGuard (B.rsiB h.close) none, rsiSignal (runGuard (B.rsiB h.close) none)⟩,
    runGuard (B.macdB h.close) ⟨none, none, none⟩,
    ⟨runGuard (B.smaB h.close) ⟨none, none, none, none⟩,
     runGuard (B.emaB h.close) ⟨none, none, none⟩,
     priceVs (PVal.num c) (runGuard (B.smaB h.close) ⟨none, none, none, none⟩).sma_20,
     priceVs (PVal.num c) (runGuard (B.smaB h.close) ⟨none, none, none, none⟩).sma_50,
     priceVs (PVal.num c) (runGuard (B.smaB h.close) ⟨none, none, none, none⟩).sma_200⟩,
    ⟨(runGuard (B.bollB h.close) ⟨none, none, none⟩).upper,
     (runGuard (B.bollB h.close) ⟨none, none, none⟩).middle,
     (runGuard (B.bollB h.close) ⟨none, none, none⟩).lower,
     bollPosition (PVal.num c) (runGuard (B.bollB h.close) ⟨none, none, none⟩)⟩,
    runGuard (B.stochB h.high h.low h.close) ⟨none, none⟩,
    runGuard (B.atrB h.high h.low h.close) none,
    ⟨PVal.num v, meanQ h.volume,
     if PVal.ltB (PVal.num 0) (meanQ h.volume)
     then some ((PVal.num v).div (meanQ h.volume)) else none⟩⟩⟩

/-! Toolkit lemmas about the series primitives. -/

theorem length_rollingApply (w : Nat) (f : List PVal → PVal) (l : List PVal) :
    (rollingApply w f l).length = l.length := by
  simp [rollingApply]

theorem ewmGo_length (a : ℚ) (prev : ℚ) (l : List ℚ) :
    (ewmGo a prev l).length = l.length := by
  induction l generalizing prev with
  | nil => rfl
  | cons x xs ih => simp [ewmGo, ih]

theorem ewmQ_length (s : ℚ) (l : List ℚ) : (ewmQ s l).length = l.length := by
  cases l with
  | nil => rfl
  | cons x xs => simp [ewmQ, ewmGo_length]

theorem diffP_length (l : List ℚ) : (diffP l).length = l.length := by
  cases l with
  | nil => rfl
  | cons x xs => simp [diffP]

theorem shiftP_length (l : List ℚ) : (shiftP l).length = l.length := by
  cases l with
  | nil => rfl
  | cons x xs => simp [shiftP]

theorem getLast?_exists {α : Type} {l : List α} (h : l ≠ []) :
    ∃ a, l.getLast? = some a := by
  have := List.getLast?_isSome.mpr h
  exact Option.isSome_iff_exists.mp this

theorem mem_of_getLast?_eq {α : Type} {l : List α} {a : α}
    (h : l.getLast? = some a) : a ∈ l := by
  have hm : a ∈ l.getLast? := by rw [h]; rfl
  obtain ⟨hne, heq⟩ := List.mem_getLast?_eq_getLast hm
  rw [heq]
  exact List.getLast_mem hne

theorem getLast?_cons_of_ne {α : Type} (a : α) (l : List α) (h : l ≠ []) :
    (a :: l).getLast? = l.getLast? := by
  cases l with
  | nil => exact absurd rfl h
  | cons b m => exact List.getLast?_cons_cons

theorem getLast?_zipWith {α β γ : Type} (f : α → β → γ) :
    ∀ (l₁ : List α) (l₂ : List β), l₁.length = l₂.length →
      (List.zipWith f l₁ l₂).getLast? =
        Option.bind l₁.getLast? (fun a => Option.map (f a) l₂.getLast?) := by
  intro l₁
  induction l₁ with
  | nil =>
    intro l₂ h
    cases l₂ with
    | nil => rfl
    | cons y ys => simp at h
  | cons x xs ih =>
    intro l₂ h
    cases l₂ with
    | nil => simp at h
    | cons y ys =>
      cases xs with
      | nil =>
        cases ys with
        | nil => rfl
        | cons z zs => simp at h
      | cons a as =>
        cases ys with
        | nil => simp at h
        | cons b bs =>
          have hlen : (a :: as).length = (b :: bs).length := by simpa using h
          have hih := ih (b :: bs) hlen
          simpa [List.getLast?_cons_cons] using hih

theorem getLast?_drop_of_lt {α : Type} :
    ∀ (l : List α) (k : Nat), k < l.length → (l.drop k).getLast? = l.getLast? := by
  intro l
  induction l with
  | nil => intro k hk; simp at hk
  | cons x xs ih =>
    intro k hk
    cases k with
    | zero => rfl
    | succ k' =>
      have hk' : k' < xs.length := by simpa using hk
      have hxs : xs ≠ [] := by
        cases xs with
        | nil => simp at hk'
        | cons y ys => exact List.cons_ne_nil y ys
      rw [List.drop_succ_cons, ih k' hk', getLast?_cons_of_ne x xs hxs]

theorem rollingApply_getLast? (w : Nat) (f : List PVal → PVal) (l : List PVal)
    (h : l ≠ []) :
    (rollingApply w f l).getLast? =
      some (if w ≤ l.length then f (l.drop (l.length - w)) else PVal.nan) := by
  obtain ⟨n, hn⟩ : ∃ n, l.length = n + 1 := by
    cases l with
    | nil => exact absurd rfl h
    | cons x xs => exact ⟨xs.length, rfl⟩
  unfold rollingApply
  rw [hn, List.range_succ, List.map_append]
  simp only [List.map_cons, List.map_nil, List.getLast?_concat]
  rw [← hn, List.take_length]

theorem lastE_eq_ok {α : Type} {l : List α} {a : α} (h : l.getLast? = some a) :
    lastE l = Except.ok a := by
  unfold lastE
  rw [h]

theorem lastE_eq_error {α : Type} {l : List α} (h : l = []) :
    lastE l = Except.error "single positional indexer is out-of-bounds" := by
  rw [h]
  rfl

theorem get_with_eq_report (B : CalcBodies) (t p : String) (h : Hist) (c v : ℚ)
    (hc : h.close.getLast? = some c) (hv : h.volume.getLast? = some v) :
    get_technical_indicators_with B t p h =
      TIResult.report (assembleFrom B t p h c v) := by
  have hemp : h.close.isEmpty = false := by
    cases hl : h.close with
    | nil => rw [hl] at hc; simp at hc
    | cons a as => rfl
  unfold get_technical_indicators_with outerBody
  rw [hemp]
  simp only [Bool.false_eq_true, if_false, lastE_eq_ok hc, lastE_eq_ok hv,
    Except.map, Bind.bind, Except.bind, pure, Except.pure, assembleFrom]

theorem sumPV_all_zero : ∀ (l : List PVal), (∀ x ∈ l, x = PVal.num 0) →
    sumPV l = PVal.num 0 := by
  intro l
  induction l with
  | nil => intro _; rfl
  | cons x xs ih =>
    intro hz
    have hx : x = PVal.num 0 := hz x (List.mem_cons_self x xs)
    have hxs : sumPV xs = PVal.num 0 := ih (fun y hy => hz y (List.mem_cons_of_mem x hy))
    show x.add (sumPV xs) = PVal.num 0
    rw [hx, hxs]
    show PVal.num (0 + 0) = PVal.num 0
    norm_num

theorem not_nan_of_all_num (l : List PVal) (hnn : ∀ x ∈ l, x.isNum = true) :
    l.any PVal.isNan = false := by
  rw [List.any_eq_false]
  intro x hx
  have := hnn x hx
  cases x with
  | num q => simp [PVal.isNan]
  | pinf => simp [PVal.isNum] at this
  | ninf => simp [PVal.isNum] at this
  | nan => simp [PVal.isNum] at this

theorem meanWin_all_zero (l : List PVal) (hne : l ≠ [])
    (hz : ∀ x ∈ l, x = PVal.num 0) : meanWin l = PVal.num 0 := by
  have hno : l.any PVal.isNan = false :=
    not_nan_of_all_num l (fun x hx => by rw [hz x hx]; rfl)
  have hlen : ((l.length : ℚ)) ≠ 0 := by
    have : l.length ≠ 0 := fun hh => hne (List.length_eq_zero.mp hh)
    exact_mod_cast this
  unfold meanWin
  rw [hno, sumPV_all_zero l hz]
  simp only [Bool.false_eq_true, if_false]
  show PVal.div (PVal.num 0) (PVal.num (l.length : ℚ)) = PVal.num 0
  simp [PVal.div, hlen]

theorem sumPV_num_bound : ∀ (l : List PVal),
    (∀ x ∈ l, ∃ q : ℚ, x = PVal.num q ∧ 0 ≤ q) →
    ∃ s : ℚ, sumPV l = PVal.num s ∧ 0 ≤ s ∧ ∀ q : ℚ, PVal.num q ∈ l → q ≤ s := by
  intro l
  induction l with
  | nil =>
    intro _
    exact ⟨0, rfl, le_refl 0, fun q hq => absurd hq (List.not_mem_nil _)⟩
  | cons x xs ih =>
    intro hnn
    obtain ⟨q0, hx, hq0⟩ := hnn x (List.mem_cons_self x xs)
    obtain ⟨s, hs, hs0, hbd⟩ := ih (fun y hy => hnn y (List.mem_cons_of_mem x hy))
    refine ⟨q0 + s, ?_, by positivity, ?_⟩
    · show x.add (sumPV xs) = PVal.num (q0 + s)
      rw [hx, hs]
      rfl
    · intro q hq
      rcases List.mem_cons.mp hq with hq | hq
      · rw [hx] at hq
        simp only [PVal.num.injEq] at hq
        rw [hq]
        linarith
      · have := hbd q hq
        linarith

theorem meanWin_pos (l : List PVal)
    (hnn : ∀ x ∈ l, ∃ q : ℚ, x = PVal.num q ∧ 0 ≤ q)
    (hpos : ∃ q : ℚ, PVal.num q ∈ l ∧ 0 < q) :
    ∃ s : ℚ, meanWin l = PVal.num s ∧ 0 < s := by
  obtain ⟨s, hs, _, hbd⟩ := sumPV_num_bound l hnn
  obtain ⟨q, hq, hq0⟩ := hpos
  have hspos : 0 < s := lt_of_lt_of_le hq0 (hbd q hq)
  have hne : l ≠ [] := fun he => by rw [he] at hq; exact List.not_mem_nil _ hq
  have hlenpos : (0 : ℚ) < (l.length : ℚ) := by
    have : 0 < l.length := List.length_pos.mpr hne
    exact_mod_cast this
  have hno : l.any PVal.isNan = false := by
    apply not_nan_of_all_num
    intro x hx
    obtain ⟨qx, hqx, _⟩ := hnn x hx
    rw [hqx]
    rfl
  refine ⟨s / (l.length : ℚ), ?_, by positivity⟩
  unfold meanWin
  rw [hno, hs]
  simp only [Bool.false_eq_true, if_false]
  show PVal.div (PVal.num s) (PVal.num (l.length : ℚ)) = PVal.num (s / (l.length : ℚ))
  simp [PVal.div, ne_of_gt hlenpos]

theorem sumPV_replicate (m : Nat) (c : ℚ) :
    sumPV (List.replicate m (PVal.num c)) = PVal.num (m * c) := by
  induction m with
  | zero =>
    show PVal.num 0 = PVal.num ((0 : ℕ) * c)
    norm_num
  | succ k ih =>
    show (PVal.num c).add (sumPV (List.replicate k (PVal.num c))) = _
    rw [ih]
    have h1 : (PVal.num c).add (PVal.num ((k : ℚ) * c)) = PVal.num (c + (k : ℚ) * c) := rfl
    rw [h1]
    congr 1
    push_cast
    ring

theorem meanWin_replicate (w : Nat) (hw : 0 < w) (c : ℚ) :
    meanWin (List.replicate w (PVal.num c)) = PVal.num c := by
  have hno : (List.replicate w (PVal.num c)).any PVal.isNan = false := by
    apply not_nan_of_all_num
    intro x hx
    rw [List.eq_of_mem_replicate hx]
    rfl
  have hwq : ((w : ℚ)) ≠ 0 := by
    exact_mod_cast Nat.pos_iff_ne_zero.mp hw
  unfold meanWin
  rw [hno, sumPV_replicate]
  simp only [Bool.false_eq_true, if_false, List.length_replicate]
  show PVal.div (PVal.num ((w : ℚ) * c)) (PVal.num (w : ℚ)) = PVal.num c
  simp [PVal.div, hwq]

theorem foldr_add_replicate (m : Nat) (c : ℚ) :
    (List.replicate m c).foldr (· + ·) 0 = m * c := by
  induction m with
  | zero => norm_num
  | succ k ih =>
    show c + (List.replicate k c).foldr (· + ·) 0 = _
    rw [ih]
    push_cast
    ring

theorem foldr_sq_zero (m : Nat) (c : ℚ) :
    (List.replicate m c).foldr (fun x acc => (x - c) ^ 2 + acc) 0 = 0 := by
  induction m with
  | zero => rfl
  | succ k ih =>
    show (c - c) ^ 2 + (List.replicate k c).foldr (fun x acc => (x - c) ^ 2 + acc) 0 = 0
    rw [ih]
    ring

theorem sampleVar_replicate (w : Nat) (hw : 0 < w) (c : ℚ) :
    sampleVar (List.replicate w c) = 0 := by
  have hwq : ((w : ℚ)) ≠ 0 := by
    exact_mod_cast Nat.pos_iff_ne_zero.mp hw
  unfold sampleVar
  simp only [List.length_replicate, foldr_add_replicate]
  rw [mul_comm ((w : ℚ)) c]
  rw [mul_div_assoc, div_self hwq, mul_one]
  rw [foldr_sq_zero, zero_div]

theorem rat_sqrt_zero : Rat.sqrt 0 = 0 := rfl

theorem stdWin_replicate (w : Nat) (hw : 0 < w) (c : ℚ) :
    stdWin (List.replicate w (PVal.num c)) = PVal.num 0 := by
  have hall : (List.replicate w (PVal.num c)).all PVal.isNum = true := by
    rw [List.all_eq_true]
    intro x hx
    rw [List.eq_of_mem_replicate hx]
    rfl
  unfold stdWin
  rw [hall]
  simp only [if_true]
  rw [List.map_replicate]
  show PVal.num (Rat.sqrt (sampleVar (List.replicate w c))) = PVal.num 0
  rw [sampleVar_replicate w hw c, rat_sqrt_zero]

theorem foldl_min_replicate (m : Nat) (c : ℚ) :
    (List.replicate m c).foldl min c = c := by
  induction m with
  | zero => rfl
  | succ k ih =>
    show (List.replicate k c).foldl min (min c c) = c
    rw [min_self]
    exact ih

theorem foldl_max_replicate (m : Nat) (c : ℚ) :
    (List.replicate m c).foldl max c = c := by
  induction m with
  | zero => rfl
  | succ k ih =>
    show (List.replicate k c).foldl max (max c c) = c
    rw [max_self]
    exact ih

theorem condLast_ok (s : ℚ) (w : Nat) (hw : 0 < w) (d : List ℚ) :
    (if w ≤ d.length
     then Except.map (fun q => some (PVal.num q)) (lastE (ewmQ s d))
     else pure none)
      = Except.ok (if w ≤ d.length
        then Option.map PVal.num (ewmQ s d).getLast? else none) := by
  by_cases hcond : w ≤ d.length
  · rw [if_pos hcond, if_pos hcond]
    have hne : ewmQ s d ≠ [] := by
      apply List.ne_nil_of_length_pos
      rw [ewmQ_length]
      omega
    obtain ⟨a, ha⟩ := getLast?_exists hne
    rw [lastE_eq_ok ha, ha]
    rfl
  · rw [if_neg hcond, if_neg hcond]
    rfl

theorem calculate_ema_eq (d : List ℚ) :
    calculate_ema d =
      ⟨if 12 ≤ d.length then Option.map PVal.num (ewmQ 12 d).getLast? else none,
       if 26 ≤ d.length then Option.map PVal.num (ewmQ 26 d).getLast? else none,
       if 50 ≤ d.length then Option.map PVal.num (ewmQ 50 d).getLast? else none⟩ := by
  unfold calculate_ema emaBody
  rw [condLast_ok 12 12 (by norm_num) d, condLast_ok 26 26 (by norm_num) d,
    condLast_ok 50 50 (by norm_num) d]
  rfl

theorem calculate_ema_isSome (d : List ℚ) :
    ((calculate_ema d).ema_12.isSome = true ↔ 12 ≤ d.length)
    ∧ ((calculate_ema d).ema_26.isSome = true ↔ 26 ≤ d.length)
    ∧ ((calculate_ema d).ema_50.isSome = true ↔ 50 ≤ d.length) := by
  rw [calculate_ema_eq]
  refine ⟨?_, ?_, ?_⟩ <;>
  · constructor
    · intro hsome
      by_contra hc
      simp only [if_neg hc, Option.isSome_none] at hsome
      cases hsome
    · intro hc
      have hne : ∀ s : ℚ, ewmQ s d ≠ [] := by
        intro s
        apply List.ne_nil_of_length_pos
        rw [ewmQ_length]
        omega
      obtain ⟨a, ha⟩ := getLast?_exists (hne 12)
      obtain ⟨b, hb⟩ := getLast?_exists (hne 26)
      obtain ⟨c, hcc⟩ := getLast?_exists (hne 50)
      simp only [if_pos hc, ha, hb, hcc, Option.map_some', Option.isSome_some]

theorem calculate_atr_short (high low close : List ℚ) (p : Nat)
    (hh : high.length = close.length) (hl : low.length = close.length)
    (hlt : close.length < p) : calculate_atr high low close p = none := by
  cases hcl : close with
  | nil =>
    have hh0 : high = [] := by
      rw [hcl] at hh
      exact List.length_eq_zero.mp hh
    have hl0 : low = [] := by
      rw [hcl] at hl
      exact List.length_eq_zero.mp hl
    rw [hh0, hl0]
    rfl
  | cons a as =>
    rw [← hcl]
    have hcne : close ≠ [] := by rw [hcl]; exact List.cons_ne_nil a as
    have hcpos : 0 < close.length := List.length_pos.mpr hcne
    have htrlen : (List.zipWith PVal.maxSkipNa
        (List.zipWith PVal.maxSkipNa
          (List.zipWith (fun h l => PVal.num (h - l)) high low)
          (List.zipWith (fun h c => ((PVal.num h).sub c).abs) high (shiftP close)))
        (List.zipWith (fun l c => ((PVal.num l).sub c).abs) low (shiftP close))).length
        = close.length := by
      simp [List.length_zipWith, shiftP_length, hh, hl]
    have htrne : (List.zipWith PVal.maxSkipNa
        (List.zipWith PVal.maxSkipNa
          (List.zipWith (fun h l => PVal.num (h - l)) high low)
          (List.zipWith (fun h c => ((PVal.num h).sub c).abs) high (shiftP close)))
        (List.zipWith (fun l c => ((PVal.num l).sub c).abs) low (shiftP close))) ≠ [] := by
      apply List.ne_nil_of_length_pos
      rw [htrlen]
      exact hcpos
    have hlast := rollingApply_getLast? p meanWin _ htrne
    rw [htrlen] at hlast
    rw [if_neg (by omega : ¬ p ≤ close.length)] at hlast
    simp only [calculate_atr, atrBody]
    rw [lastE_eq_ok hlast]
    rfl

theorem calculate_macd_histogram (d : List ℚ) (fa sl si : ℚ) (m s h : PVal)
    (heq : calculate_macd d fa sl si = ⟨some m, some s, some h⟩) :
    h = m.sub s := by
  cases hd : d with
  | nil =>
    have hred : calculate_macd [] fa sl si = ⟨none, none, none⟩ := rfl
    rw [hd, hred] at heq
    simp at heq
  | cons a as =>
    have hdne : d ≠ [] := by rw [hd]; exact List.cons_ne_nil a as
    have hdpos : 0 < d.length := List.length_pos.mpr hdne
    have hm1 : (List.zipWith (fun a b => a - b) (ewmQ fa d) (ewmQ sl d)).length
        = d.length := by
      simp [List.length_zipWith, ewmQ_length]
    have hmne : List.zipWith (fun a b => a - b) (ewmQ fa d) (ewmQ sl d) ≠ [] := by
      apply List.ne_nil_of_length_pos
      rw [hm1]
      exact hdpos
    obtain ⟨ma, hma⟩ := getLast?_exists hmne
    have hsne : ewmQ si (List.zipWith (fun a b => a - b) (ewmQ fa d) (ewmQ sl d)) ≠ [] := by
      apply List.ne_nil_of_length_pos
      rw [ewmQ_length, hm1]
      exact hdpos
    obtain ⟨sa, hsa⟩ := getLast?_exists hsne
    have hhist := getLast?_zipWith (fun a b => a - b)
      (List.zipWith (fun a b => a - b) (ewmQ fa d) (ewmQ sl d))
      (ewmQ si (List.zipWith (fun a b => a - b) (ewmQ fa d) (ewmQ sl d)))
      (by rw [ewmQ_length])
    rw [hma, hsa] at hhist
    simp only [Option.some_bind, Option.map_some'] at hhist
    simp only [calculate_macd, macdBody] at heq
    rw [lastE_eq_ok hma, lastE_eq_ok hsa, lastE_eq_ok hhist] at heq
    simp only [Bind.bind, Except.bind, pure, Except.pure, runGuard] at heq
    have hmv : some m = some (PVal.num ma) := by
      have := congrArg MacdGroup.macd heq
      exact this.symm
    have hsv : some s = some (PVal.num sa) := by
      have := congrArg MacdGroup.signal heq
      exact this.symm
    have hhv : some h = some (PVal.num (ma - sa)) := by
      have := congrArg MacdGroup.histogram heq
      exact this.symm
    simp only [Option.some.injEq] at hmv hsv hhv
    rw [hmv, hsv, hhv]
    show PVal.num (ma - sa) = PVal.num (ma + -sa)
    rw [← sub_eq_add_neg]

theorem minWin_replicate (w : Nat) (hw : 0 < w) (c : ℚ) :
    minWin (List.replicate w (PVal.num c)) = PVal.num c := by
  have hall : (List.replicate w (PVal.num c)).all PVal.isNum = true := by
    rw [List.all_eq_true]
    intro x hx
    rw [List.eq_of_mem_replicate hx]
    rfl
  unfold minWin
  rw [hall]
  simp only [if_true, List.map_replicate]
  obtain ⟨k, rfl⟩ : ∃ k, w = k + 1 := ⟨w - 1, (Nat.succ_pred_eq_of_pos hw).symm⟩
  show PVal.num ((List.replicate k (PVal.num c : PVal).toQ).foldl min (PVal.num c : PVal).toQ) = _
  show PVal.num ((List.replicate k c).foldl min c) = PVal.num c
  rw [foldl_min_replicate]

theorem PVal.sub_num (a b : ℚ) : (PVal.num a).sub (PVal.num b) = PVal.num (a - b) := by
  show PVal.num (a + -b) = PVal.num (a - b)
  rw [← sub_eq_add_neg]

theorem calculate_rsi_eq_last (p : Nat) (d : List ℚ) (hd : d ≠ []) :
    calculate_rsi d p = pyFloatOpt
      ((PVal.num 100).sub ((PVal.num 100).div ((PVal.num 1).add
        (PVal.div
          (if p ≤ d.length
           then meanWin (((diffP d).map whereGtZero).drop (d.length - p))
           else PVal.nan)
          (if p ≤ d.length
           then meanWin (((diffP d).map (fun v => (whereLtZero v).neg)).drop (d.length - p))
           else PVal.nan))))) := by
  have hdpos : 0 < d.length := List.length_pos.mpr hd
  have hG : ((diffP d).map whereGtZero).length = d.length := by
    rw [List.length_map, diffP_length]
  have hL : ((diffP d).map (fun v => (whereLtZero v).neg)).length = d.length := by
    rw [List.length_map, diffP_length]
  have hGne : (diffP d).map whereGtZero ≠ [] := by
    apply List.ne_nil_of_length_pos
    rw [hG]
    exact hdpos
  have hLne : (diffP d).map (fun v => (whereLtZero v).neg) ≠ [] := by
    apply List.ne_nil_of_length_pos
    rw [hL]
    exact hdpos
  have hgain := rollingApply_getLast? p meanWin _ hGne
  have hloss := rollingApply_getLast? p meanWin _ hLne
  rw [hG] at hgain
  rw [hL] at hloss
  have hlen2 : (rollingApply p meanWin ((diffP d).map whereGtZero)).length
      = (rollingApply p meanWin ((diffP d).map (fun v => (whereLtZero v).neg))).length := by
    rw [length_rollingApply, length_rollingApply, hG, hL]
  have hzip := getLast?_zipWith PVal.div _ _ hlen2
  rw [hgain, hloss] at hzip
  simp only [Option.some_bind, Option.map_some'] at hzip
  have hmap := List.getLast?_map
    (fun r => (PVal.num 100).sub ((PVal.num 100).div ((PVal.num 1).add r)))
    (List.zipWith PVal.div
      (rollingApply p meanWin ((diffP d).map whereGtZero))
      (rollingApply p meanWin ((diffP d).map (fun v => (whereLtZero v).neg))))
  rw [hzip] at hmap
  simp only [Option.map_some'] at hmap
  simp only [calculate_rsi, rsiBody]
  rw [lastE_eq_ok hmap]
  rfl

theorem runGuard_pyFloatOpt_not_nan {L : List PVal} {v : PVal}
    (h : runGuard (Bind.bind (lastE L)
      (fun last => pure (pyFloatOpt last))) none = some v) :
    v.isNan = false := by
  rcases hE : lastE L with m | a
  · rw [hE] at h
    simp [Bind.bind, Except.bind, runGuard] at h
  · rw [hE] at h
    simp only [Bind.bind, Except.bind, pure, Except.pure, runGuard] at h
    unfold pyFloatOpt at h
    by_cases hn : a.isNan = true
    · rw [if_pos hn] at h
      cases h
    · rw [Bool.not_eq_true] at hn
      rw [hn] at h
      simp only [Bool.false_eq_true, if_false, Option.some.injEq] at h
      rw [← h]
      exact hn

theorem calculate_rsi_not_nan (p : Nat) (d : List ℚ) (v : PVal)
    (h : calculate_rsi d p = some v) : v.isNan = false := by
  simp only [calculate_rsi, rsiBody] at h
  exact runGuard_pyFloatOpt_not_nan h

theorem maxWin_replicate (w : Nat) (hw : 0 < w) (c : ℚ) :
    maxWin (List.replicate w (PVal.num c)) = PVal.num c := by
  have hall : (List.replicate w (PVal.num c)).all PVal.isNum = true := by
    rw [List.all_eq_true]
    intro x hx
    rw [List.eq_of_mem_replicate hx]
    rfl
  unfold maxWin
  rw [hall]
  simp only [if_true, List.map_replicate]
  obtain ⟨k, rfl⟩ : ∃ k, w = k + 1 := ⟨w - 1, (Nat.succ_pred_eq_of_pos hw).symm⟩
  show PVal.num ((List.replicate k c).foldl max c) = PVal.num c
  rw [foldl_max_replicate]

theorem get_empty_close (B : CalcBodies) (t p : String) (h : Hist)
    (hc : h.close = []) :
    get_technical_indicators_with B t p h =
      TIResult.err "No historical data available" t p := by
  unfold get_technical_indicators_with outerBody
  have hemp : h.close.isEmpty = true := by rw [hc]; rfl
  rw [hemp]
  rfl

theorem get_empty_volume (B : CalcBodies) (t p : String) (h : Hist)
    (hcne : h.close ≠ []) (hv : h.volume = []) :
    get_technical_indicators_with B t p h =
      TIResult.err "single positional indexer is out-of-bounds" t p := by
  have hemp : h.close.isEmpty = false := by
    cases hl : h.close with
    | nil => exact absurd hl hcne
    | cons a as => rfl
  obtain ⟨c, hc⟩ := getLast?_exists hcne
  unfold get_technical_indicators_with outerBody
  rw [hemp]
  simp only [Bool.false_eq_true, if_false, lastE_eq_ok hc, lastE_eq_error hv,
    Except.map, Bind.bind, Except.bind]

theorem get_rsi?_eq (t p : String) (h : Hist) (c v : ℚ)
    (hc : h.close.getLast? = some c) (hv : h.volume.getLast? = some v) :
    (get_technical_indicators t p h).rsi? =
      some ⟨calculate_rsi h.close 14, rsiSignal (calculate_rsi h.close 14)⟩ := by
  show (get_technical_indicators_with defaultBodies t p h).rsi? = _
  rw [get_with_eq_report defaultBodies t p h c v hc hv]
  rfl

theorem get_ema?_eq (t p : String) (h : Hist) (c v : ℚ)
    (hc : h.close.getLast? = some c) (hv : h.volume.getLast? = some v) :
    (get_technical_indicators t p h).ema? = some (calculate_ema h.close) := by
  show (get_technical_indicators_with defaultBodies t p h).ema? = _
  rw [get_with_eq_report defaultBodies t p h c v hc hv]
  rfl

theorem get_atr?_eq (t p : String) (h : Hist) (c v : ℚ)
    (hc : h.close.getLast? = some c) (hv : h.volume.getLast? = some v) :
    (get_technical_indicators t p h).atr? =
      some (calculate_atr h.high h.low h.close 14) := by
  show (get_technical_indicators_with defaultBodies t p h).atr? = _
  rw [get_with_eq_report defaultBodies t p h c v hc hv]
  rfl

theorem get_stoch?_eq (t p : String) (h : Hist) (c v : ℚ)
    (hc : h.close.getLast? = some c) (hv : h.volume.getLast? = some v) :
    (get_technical_indicators t p h).stoch? =
      some (calculate_stochastic h.high h.low h.close 14 3) := by
  show (get_technical_indicators_with defaultBodies t p h).stoch? = _
  rw [get_with_eq_report defaultBodies t p h c v hc hv]
  rfl

theorem get_boll?_eq (t p : String) (h : Hist) (c v : ℚ)
    (hc : h.close.getLast? = some c) (hv : h.volume.getLast? = some v) :
    (get_technical_indicators t p h).boll? =
      some ⟨(calculate_bollinger_bands h.close 20 2).upper,
            (calculate_bollinger_bands h.close 20 2).middle,
            (calculate_bollinger_bands h.close 20 2).lower,
            bollPosition (PVal.num c) (calculate_bollinger_bands h.close 20 2)⟩ := by
  show (get_technical_indicators_with defaultBodies t p h).boll? = _
  rw [get_with_eq_report defaultBodies t p h c v hc hv]
  rfl

theorem calculate_rsi_short (p : Nat) (d : List ℚ) (hlt : d.length < p) :
    calculate_rsi d p = none := by
  cases hd : d with
  | nil => rfl
  | cons a as =>
    rw [hd] at hlt
    rw [calculate_rsi_eq_last p (a :: as) (List.cons_ne_nil a as)]
    rw [if_neg (by omega), if_neg (by omega)]
    rfl

theorem rsiSignal_eq_none_iff (r : Option PVal)
    (hnn : ∀ v, r = some v → v.isNan = false) :
    (rsiSignal r = none ↔ (r = none ∨ r = some (PVal.num 0))) := by
  cases r with
  | none => simp [rsiSignal, pyTruthy]
  | some val =>
    have hvn : val.isNan = false := hnn val rfl
    cases val with
    | num q =>
      by_cases hq : q = 0
      · subst hq
        constructor
        · intro _
          exact Or.inr rfl
        · intro _
          simp [rsiSignal, pyTruthy]
      · constructor
        · intro hsig
          exfalso
          revert hsig
          simp only [rsiSignal, pyTruthy, Option.getD_some, PVal.ltB, hq]
          split_ifs <;> simp_all
        · intro hor
          rcases hor with h1 | h1
          · cases h1
          · simp only [Option.some.injEq, PVal.num.injEq] at h1
            exact absurd h1 hq
    | pinf =>
      constructor
      · intro hsig
        exfalso
        revert hsig
        simp [rsiSignal, pyTruthy, PVal.ltB]
      · intro hor
        rcases hor with h1 | h1
        · cases h1
        · simp at h1
    | ninf =>
      constructor
      · intro hsig
        exfalso
        revert hsig
        simp [rsiSignal, pyTruthy, PVal.ltB]
      · intro hor
        rcases hor with h1 | h1
        · cases h1
        · simp at h1
    | nan => simp [PVal.isNan] at hvn

theorem rsiSignal_num_iffs (q : ℚ) (hq : q ≠ 0) :
    ((rsiSignal (some (PVal.num q)) = some "oversold" ↔ q < 30)
     ∧ (rsiSignal (some (PVal.num q)) = some "overbought" ↔ 70 < q)
     ∧ (rsiSignal (some (PVal.num q)) = some "neutral" ↔ (30 ≤ q ∧ q ≤ 70))) := by
  by_cases h30 : q < 30
  · have hsig : rsiSignal (some (PVal.num q)) = some "oversold" := by
      simp [rsiSignal, pyTruthy, PVal.ltB, hq, h30]
    rw [hsig]
    refine ⟨⟨fun _ => h30, fun _ => rfl⟩, ⟨?_, ?_⟩, ⟨?_, ?_⟩⟩
    · intro hcontra
      exact absurd hcontra (by decide)
    · intro h70
      exfalso
      linarith
    · intro hcontra
      exact absurd hcontra (by decide)
    · intro hh
      exfalso
      linarith [hh.1]
  · by_cases h70 : 70 < q
    · have hsig : rsiSignal (some (PVal.num q)) = some "overbought" := by
        simp [rsiSignal, pyTruthy, PVal.ltB, hq, h30, h70]
      rw [hsig]
      refine ⟨⟨?_, ?_⟩, ⟨fun _ => h70, fun _ => rfl⟩, ⟨?_, ?_⟩⟩
      · intro hcontra
        exact absurd hcontra (by decide)
      · intro hlt
        exfalso
        linarith
      · intro hcontra
        exact absurd hcontra (by decide)
      · intro hh
        exfalso
        linarith [hh.2]
    · have hsig : rsiSignal (some (PVal.num q)) = some "neutral" := by
        simp [rsiSignal, pyTruthy, PVal.ltB, hq, h30, h70]
      rw [hsig]
      refine ⟨⟨?_, ?_⟩, ⟨?_, ?_⟩, ⟨fun _ => ⟨by linarith, by linarith⟩, fun _ => rfl⟩⟩
      · intro hcontra
        exact absurd hcontra (by decide)
      · intro hlt
        exfalso
        exact h30 hlt
      · intro hcontra
        exact absurd hcontra (by decide)
      · intro hgt
        exfalso
        exact h70 hgt

theorem getLast?_replicate {α : Type} (n : Nat) (hn : 0 < n) (a : α) :
    (List.replicate n a).getLast? = some a := by
  have hne : List.replicate n a ≠ [] := by
    apply List.ne_nil_of_length_pos
    simpa using hn
  obtain ⟨b, hb⟩ := getLast?_exists hne
  have hba := List.eq_of_mem_replicate (mem_of_getLast?_eq hb)
  rw [hb, hba]

theorem calculate_stochastic_const (n : Nat) (c : ℚ) (hn : 14 ≤ n) :
    calculate_stochastic (List.replicate n c) (List.replicate n c)
      (List.replicate n c) 14 3 = ⟨none, none⟩ := by
  have hnpos : 0 < n := by omega
  have hn14 : n - (n - 14) = 14 := by omega
  have hrne : List.replicate n (PVal.num c) ≠ [] := by
    apply List.ne_nil_of_length_pos
    simpa using hnpos
  have hlow := rollingApply_getLast? 14 minWin (List.replicate n (PVal.num c)) hrne
  rw [List.length_replicate, if_pos hn, List.drop_replicate, hn14,
    minWin_replicate 14 (by norm_num) c] at hlow
  have hhigh := rollingApply_getLast? 14 maxWin (List.replicate n (PVal.num c)) hrne
  rw [List.length_replicate, if_pos hn, List.drop_replicate, hn14,
    maxWin_replicate 14 (by norm_num) c] at hhigh
  have hziplast := getLast?_zipWith (Prod.mk (α := PVal) (β := PVal))
    (rollingApply 14 minWin (List.replicate n (PVal.num c)))
    (rollingApply 14 maxWin (List.replicate n (PVal.num c)))
    (by rw [length_rollingApply, length_rollingApply])
  rw [hlow, hhigh] at hziplast
  simp only [Option.some_bind, Option.map_some'] at hziplast
  have hKlast := getLast?_zipWith
    (fun cl lh => (PVal.num 100).mul ((PVal.sub cl lh.1).div (PVal.sub lh.2 lh.1)))
    (List.replicate n (PVal.num c))
    (List.zip (rollingApply 14 minWin (List.replicate n (PVal.num c)))
      (rollingApply 14 maxWin (List.replicate n (PVal.num c))))
    (by simp [List.length_zip, length_rollingApply])
  have hziplast' : (List.zip (rollingApply 14 minWin (List.replicate n (PVal.num c)))
      (rollingApply 14 maxWin (List.replicate n (PVal.num c)))).getLast?
      = some (PVal.num c, PVal.num c) := by
    rw [List.zip_eq_zipWith]
    exact hziplast
  rw [getLast?_replicate n hnpos, hziplast'] at hKlast
  simp only [Option.some_bind, Option.map_some'] at hKlast
  have hcc : PVal.sub (PVal.num c) (PVal.num c) = PVal.num 0 := by
    rw [PVal.sub_num, sub_self]
  have hfnan : (PVal.num 100).mul
      ((PVal.sub (PVal.num c) (PVal.num c, PVal.num c).1).div
        (PVal.sub (PVal.num c, PVal.num c).2 (PVal.num c, PVal.num c).1))
      = PVal.nan := by
    show (PVal.num 100).mul
      ((PVal.sub (PVal.num c) (PVal.num c)).div (PVal.sub (PVal.num c) (PVal.num c)))
      = PVal.nan
    rw [hcc]
    show (PVal.num 100).mul (PVal.nan) = PVal.nan
    rfl
  rw [hfnan] at hKlast
  have hKlen : (List.zipWith
      (fun cl lh => (PVal.num 100).mul ((PVal.sub cl lh.1).div (PVal.sub lh.2 lh.1)))
      (List.replicate n (PVal.num c))
      (List.zip (rollingApply 14 minWin (List.replicate n (PVal.num c)))
        (rollingApply 14 maxWin (List.replicate n (PVal.num c))))).length = n := by
    simp [List.length_zipWith, List.length_zip, length_rollingApply]
  have hKne : List.zipWith
      (fun cl lh => (PVal.num 100).mul ((PVal.sub cl lh.1).div (PVal.sub lh.2 lh.1)))
      (List.replicate n (PVal.num c))
      (List.zip (rollingApply 14 minWin (List.replicate n (PVal.num c)))
        (rollingApply 14 maxWin (List.replicate n (PVal.num c)))) ≠ [] := by
    apply List.ne_nil_of_length_pos
    rw [hKlen]
    exact hnpos
  have hD := rollingApply_getLast? 3 meanWin _ hKne
  rw [hKlen, if_pos (by omega : 3 ≤ n)] at hD
  have hwin := getLast?_drop_of_lt _ (n - 3) (by rw [hKlen]; omega)
  rw [hKlast] at hwin
  have hany : ((List.zipWith
      (fun cl lh => (PVal.num 100).mul ((PVal.sub cl lh.1).div (PVal.sub lh.2 lh.1)))
      (List.replicate n (PVal.num c))
      (List.zip (rollingApply 14 minWin (List.replicate n (PVal.num c)))
        (rollingApply 14 maxWin (List.replicate n (PVal.num c))))).drop (n - 3)).any
      PVal.isNan = true :=
    List.any_eq_true.mpr ⟨PVal.nan, mem_of_getLast?_eq hwin, rfl⟩
  have hmw : meanWin ((List.zipWith
      (fun cl lh => (PVal.num 100).mul ((PVal.sub cl lh.1).div (PVal.sub lh.2 lh.1)))
      (List.replicate n (PVal.num c))
      (List.zip (rollingApply 14 minWin (List.replicate n (PVal.num c)))
        (rollingApply 14 maxWin (List.replicate n (PVal.num c))))).drop (n - 3))
      = PVal.nan := by
    unfold meanWin
    rw [hany]
    rfl
  rw [hmw] at hD
  simp only [calculate_stochastic, stochasticBody, List.map_replicate]
  rw [lastE_eq_ok hKlast, lastE_eq_ok hD]
  rfl

theorem calculate_bollinger_const (n : Nat) (c : ℚ) (hn : 20 ≤ n) :
    calculate_bollinger_bands (List.replicate n c) 20 2 =
      ⟨some (PVal.num c), some (PVal.num c), some (PVal.num c)⟩ := by
  have hnpos : 0 < n := by omega
  have hn20 : n - (n - 20) = 20 := by omega
  have hrne : List.replicate n (PVal.num c) ≠ [] := by
    apply List.ne_nil_of_length_pos
    simpa using hnpos
  have hsma := rollingApply_getLast? 20 meanWin (List.replicate n (PVal.num c)) hrne
  rw [List.length_replicate, if_pos hn, List.drop_replicate, hn20,
    meanWin_replicate 20 (by norm_num) c] at hsma
  have hstd := rollingApply_getLast? 20 stdWin (List.replicate n (PVal.num c)) hrne
  rw [List.length_replicate, if_pos hn, List.drop_replicate, hn20,
    stdWin_replicate 20 (by norm_num) c] at hstd
  have hstdmul := List.getLast?_map (fun v => v.mul (PVal.num 2))
    (rollingApply 20 stdWin (List.replicate n (PVal.num c)))
  rw [hstd] at hstdmul
  simp only [Option.map_some'] at hstdmul
  have hmul0 : (PVal.num 0).mul (PVal.num 2) = PVal.num 0 := by
    show PVal.num (0 * 2) = PVal.num 0
    norm_num
  rw [hmul0] at hstdmul
  have hupper := getLast?_zipWith PVal.add
    (rollingApply 20 meanWin (List.replicate n (PVal.num c)))
    ((rollingApply 20 stdWin (List.replicate n (PVal.num c))).map
      (fun v => v.mul (PVal.num 2)))
    (by simp [length_rollingApply])
  rw [hsma, hstdmul] at hupper
  simp only [Option.some_bind, Option.map_some'] at hupper
  have haddc : (PVal.num c).add (PVal.num 0) = PVal.num c := by
    show PVal.num (c + 0) = PVal.num c
    norm_num
  rw [haddc] at hupper
  have hlower := getLast?_zipWith PVal.sub
    (rollingApply 20 meanWin (List.replicate n (PVal.num c)))
    ((rollingApply 20 stdWin (List.replicate n (PVal.num c))).map
      (fun v => v.mul (PVal.num 2)))
    (by simp [length_rollingApply])
  rw [hsma, hstdmul] at hlower
  simp only [Option.some_bind, Option.map_some'] at hlower
  have hsubc : (PVal.num c).sub (PVal.num 0) = PVal.num c := by
    rw [PVal.sub_num, sub_zero]
  rw [hsubc] at hlower
  simp only [calculate_bollinger_bands, bollingerBody, List.map_replicate]
  rw [lastE_eq_ok hupper, lastE_eq_ok hsma, lastE_eq_ok hlower]
  rfl

/-! Claim theorems.  Concrete evaluations use `decide`; the arithmetic
kernels of `Rat` are restored to default transparency locally so that the
`Decidable` instances reduce. -/

section ClaimTheorems

attribute [local semireducible] Rat.add Rat.mul Rat.sub Rat.inv

/-- C2 counterexample: on the empty input series the engine does return
the error-shaped dictionary and echoes ticker and period, but the error
message is "No historical data available", not the literal "no data" the
claim writes. -/
theorem c2_counterexample :
    get_technical_indicators "AAPL" "3mo" ⟨[], [], [], []⟩ =
      TIResult.err "No historical data available" "AAPL" "3mo"
    ∧ "No historical data available" ≠ "no data" :=
  ⟨by decide, by decide⟩

/-- C2 (amended): for every ticker and period, the aggregator applied to
the empty price series returns the error-shaped result
with message "No historical data available" (not "no data"), echoing
ticker and period — the same shape family as the report, discriminated by
the error constructor — and never raises: the embedded engine is a total
function. -/
theorem c2_empty_series_error_shape (t p : String) :
    get_technical_indicators t p ⟨[], [], [], []⟩ =
      TIResult.err "No historical data available" t p :=
  get_empty_close defaultBodies t p ⟨[], [], [], []⟩ rfl

/-- C3 counterexample: a 14-bar close series (fewer than 15 bars) with
both gains and losses is reported with RSI = 600/13 ≈ 46.15, not null:
the `where`-fill coerces the undefined first delta to a zero gain/loss,
so the 14-bar rolling window is already full at the 14th bar. -/
theorem c3_counterexample :
    (get_technical_indicators "TEST" "3mo" zigzagHist).rsiValue?
      = some (PVal.num (600 / 13)) := by decide

/-- C3 (amended): the reported RSI value and signal are null for every
close series with fewer than 14 bars (in particular N = 0, 1, 13); at
exactly 14 bars the code can already report a value, because the
where-fill hands the rolling window an artificial zero in place of the
first, undefined delta. -/
theorem c3_rsi_null_below_window (t p : String) (h : Hist) (g : RsiGroup)
    (hlen : h.close.length < 14)
    (hg : (get_technical_indicators t p h).rsi? = some g) :
    g.value = none ∧ g.signal = none := by
  by_cases hc : h.close = []
  · rw [show get_technical_indicators t p h =
        TIResult.err "No historical data available" t p from
      get_empty_close defaultBodies t p h hc] at hg
    simp [TIResult.rsi?, TIResult.indicators?] at hg
  · by_cases hv : h.volume = []
    · rw [show get_technical_indicators t p h =
          TIResult.err "single positional indexer is out-of-bounds" t p from
        get_empty_volume defaultBodies t p h hc hv] at hg
      simp [TIResult.rsi?, TIResult.indicators?] at hg
    · obtain ⟨c, hcl⟩ := getLast?_exists hc
      obtain ⟨v, hvl⟩ := getLast?_exists hv
      rw [get_rsi?_eq t p h c v hcl hvl, calculate_rsi_short 14 h.close hlen] at hg
      have hsn : rsiSignal (none : Option PVal) = none := rfl
      rw [hsn] at hg
      simp only [Option.some.injEq] at hg
      rw [← hg]
      exact ⟨rfl, rfl⟩

/-- C3 witness: the amended theorem applied to a concrete 2-bar frame. -/
theorem c3_witness :
    ((⟨none, none⟩ : RsiGroup).value = none
     ∧ (⟨none, none⟩ : RsiGroup).signal = none) :=
  c3_rsi_null_below_window "W" "1mo" ⟨[1, 2], [1, 2], [1, 2], [7]⟩ ⟨none, none⟩
    (by decide) (by decide)

/-- C4 counterexample: a non-empty (1-bar) close series is reported with
all three EMAs null — the source gates each reported EMA on an explicit
length test against its span, contradicting the claim that EMA is
non-null from the first bar onward. -/
theorem c4_counterexample :
    (get_technical_indicators "TEST" "3mo" ⟨[100], [100], [100], [1]⟩).ema?
      = some ⟨none, none, none⟩ := by decide

/-- C4 (amended): the reported ema_12 / ema_26 / ema_50 are non-null
exactly when the close series has at least 12 / 26 / 50 bars
respectively: unlike the underlying EWM recurrence (defined from the
first point), the reported EMAs do have an insufficient-window null
state. -/
theorem c4_ema_null_iff_window (t p : String) (h : Hist) (g : EmaGroup)
    (hg : (get_technical_indicators t p h).ema? = some g) :
    (g.ema_12.isSome = true ↔ 12 ≤ h.close.length)
    ∧ (g.ema_26.isSome = true ↔ 26 ≤ h.close.length)
    ∧ (g.ema_50.isSome = true ↔ 50 ≤ h.close.length) := by
  by_cases hc : h.close = []
  · rw [show get_technical_indicators t p h =
        TIResult.err "No historical data available" t p from
      get_empty_close defaultBodies t p h hc] at hg
    simp [TIResult.ema?, TIResult.indicators?] at hg
  · by_cases hv : h.volume = []
    · rw [show get_technical_indicators t p h =
          TIResult.err "single positional indexer is out-of-bounds" t p from
        get_empty_volume defaultBodies t p h hc hv] at hg
      simp [TIResult.ema?, TIResult.indicators?] at hg
    · obtain ⟨c, hcl⟩ := getLast?_exists hc
      obtain ⟨v, hvl⟩ := getLast?_exists hv
      rw [get_ema?_eq t p h c v hcl hvl] at hg
      simp only [Option.some.injEq] at hg
      rw [← hg]
      exact calculate_ema_isSome h.close

/-- C4 witness: the amended theorem applied to a concrete 12-bar frame
(ema_12 defined, ema_26 and ema_50 still null). -/
theorem c4_witness :
    ((some (PVal.num 5) : Option PVal).isSome = true
        ↔ 12 ≤ (List.replicate 12 (5 : ℚ)).length)
    ∧ ((none : Option PVal).isSome = true
        ↔ 26 ≤ (List.replicate 12 (5 : ℚ)).length)
    ∧ ((none : Option PVal).isSome = true
        ↔ 50 ≤ (List.replicate 12 (5 : ℚ)).length) :=
  c4_ema_null_iff_window "W" "1mo"
    ⟨List.replicate 12 5, List.replicate 12 5, List.replicate 12 5,
     List.replicate 12 1⟩
    ⟨some (PVal.num 5), none, none⟩ (by decide)

/-- C5 counterexample: a 14-bar constant OHLCV frame (fewer than 15 bars)
reports ATR = 0, not null: the rowwise `DataFrame.max` skips the NaN
true-range cells of the first row and falls back to high - low, so 14
true-range values already exist after 14 bars. -/
theorem c5_counterexample :
    (get_technical_indicators "TEST" "3mo"
      ⟨List.replicate 14 5, List.replicate 14 5, List.replicate 14 5,
       List.replicate 14 1⟩).atr? = some (some (PVal.num 0)) := by decide

/-- C5 (amended): the reported atr is null for every rectangular OHLCV
frame with fewer than 14 bars; at exactly 14 bars it is already non-null,
because the skipna row maximum silently defines the first bar's true
range as high - low instead of leaving it undefined. -/
theorem c5_atr_null_below_window (t p : String) (h : Hist) (g : Option PVal)
    (hh : h.high.length = h.close.length) (hl : h.low.length = h.close.length)
    (hlen : h.close.length < 14)
    (hg : (get_technical_indicators t p h).atr? = some g) :
    g = none := by
  by_cases hc : h.close = []
  · rw [show get_technical_indicators t p h =
        TIResult.err "No historical data available" t p from
      get_empty_close defaultBodies t p h hc] at hg
    simp [TIResult.atr?, TIResult.indicators?] at hg
  · by_cases hv : h.volume = []
    · rw [show get_technical_indicators t p h =
          TIResult.err "single positional indexer is out-of-bounds" t p from
        get_empty_volume defaultBodies t p h hc hv] at hg
      simp [TIResult.atr?, TIResult.indicators?] at hg
    · obtain ⟨c, hcl⟩ := getLast?_exists hc
      obtain ⟨v, hvl⟩ := getLast?_exists hv
      rw [get_atr?_eq t p h c v hcl hvl,
        calculate_atr_short h.high h.low h.close 14 hh hl hlen] at hg
      simp only [Option.some.injEq] at hg
      exact hg.symm

/-- C5 witness: the amended theorem applied to a concrete 5-bar frame. -/
theorem c5_witness : (none : Option PVal) = none :=
  c5_atr_null_below_window "W" "1mo"
    ⟨[1, 2, 3, 4, 5], [1, 2, 3, 4, 5], [1, 2, 3, 4, 5], [9, 9, 9, 9, 9]⟩ none
    rfl rfl (by decide) (by decide)

/-- C7 (confirmed): whenever the MACD calculator returns non-null macd,
signal and histogram, the identity histogram = macd - signal holds — in
the embedding exactly, since the source computes the histogram as the
literal elementwise difference of the two lines (exact rationals idealise
the IEEE doubles, for which the spec grants a tolerance). -/
theorem c7_macd_histogram_identity (d : List ℚ) (fa sl si : ℚ) (m s hg : PVal)
    (heq : calculate_macd d fa sl si = ⟨some m, some s, some hg⟩) :
    hg = m.sub s :=
  calculate_macd_histogram d fa sl si m s hg heq

/-- C7 witness: the identity instantiated on the two-bar series [1, 2]
with the source's spans 12/26/9. -/
theorem c7_witness :
    PVal.num (112 / 1755) = (PVal.num (28 / 351)).sub (PVal.num (28 / 1755)) :=
  c7_macd_histogram_identity [1, 2] 12 26 9 (PVal.num (28 / 351))
    (PVal.num (28 / 1755)) (PVal.num (112 / 1755)) (by decide)

/-- C10 (confirmed): the aggregator is a total function whose value is
always a report-shaped or error-shaped dictionary echoing ticker and
period — it can never propagate an exception.  The empty frame yields the
no-data error; a malformed frame whose volume column is empty while close
is not faults in the volume indexer, outside the seven guarded
calculators, and the outer handler converts the entire result to the
error shape rather than a partial report; every frame with non-empty
close and volume columns yields a full report. -/
theorem c10_result_shape (t p : String) (h : Hist) :
    ((∃ r, get_technical_indicators t p h = TIResult.report r)
      ∨ (∃ m, get_technical_indicators t p h = TIResult.err m t p))
    ∧ (h.close = [] →
        get_technical_indicators t p h =
          TIResult.err "No historical data available" t p)
    ∧ (h.close ≠ [] → h.volume = [] →
        get_technical_indicators t p h =
          TIResult.err "single positional indexer is out-of-bounds" t p)
    ∧ (h.close ≠ [] → h.volume ≠ [] →
        ∃ r, get_technical_indicators t p h = TIResult.report r) := by
  refine ⟨?_, fun hc => get_empty_close defaultBodies t p h hc,
    fun hc hv => get_empty_volume defaultBodies t p h hc hv, fun hc hv => ?_⟩
  · by_cases hc : h.close = []
    · exact Or.inr ⟨_, get_empty_close defaultBodies t p h hc⟩
    · by_cases hv : h.volume = []
      · exact Or.inr ⟨_, get_empty_volume defaultBodies t p h hc hv⟩
      · obtain ⟨c, hcl⟩ := getLast?_exists hc
        obtain ⟨v, hvl⟩ := getLast?_exists hv
        exact Or.inl ⟨_, get_with_eq_report defaultBodies t p h c v hcl hvl⟩
  · obtain ⟨c, hcl⟩ := getLast?_exists hc
    obtain ⟨v, hvl⟩ := getLast?_exists hv
    exact ⟨_, get_with_eq_report defaultBodies t p h c v hcl hvl⟩

/-- C10 witness: the two error-shaped branches at concrete inputs — the
empty frame and a malformed ragged frame with an empty volume column. -/
theorem c10_witness :
    get_technical_indicators "AMZN" "6mo" ⟨[], [], [], []⟩ =
      TIResult.err "No historical data available" "AMZN" "6mo"
    ∧ get_technical_indicators "AMZN" "6mo" ⟨[2], [1], [3], []⟩ =
      TIResult.err "single positional indexer is out-of-bounds" "AMZN" "6mo" :=
  ⟨(c10_result_shape "AMZN" "6mo" ⟨[], [], [], []⟩).2.1 rfl,
   (c10_result_shape "AMZN" "6mo" ⟨[2], [1], [3], []⟩).2.2.1 (by decide) rfl⟩

/-- C1 counterexample: on the spec's own end-to-end scenario — 30 bars of
strictly rising closes 100.00 .. 129.00 — the engine reports
rsi.value = 100.0 and rsi.signal = "overbought", not null: pandas turns
the zero mean loss into RS = +∞ and `100 - 100/(1 + RS)` into exactly
100, which the `pd.isna` guard does not filter. -/
theorem c1_counterexample :
    (get_technical_indicators "TEST" "3mo" risingHist).rsi? =
      some ⟨some (PVal.num 100), some "overbought"⟩ := by decide

/-- C1 (amended): for every close series of at least 15 bars whose
trailing 14 per-bar deltas are all finite and non-negative with at least
one strictly positive (so the 14-bar rolling mean of losses is exactly
zero but the mean gain is not), the engine reports rsi.value = 100 and
rsi.signal = "overbought" — it does not output null; the division of a
positive mean gain by a zero mean loss yields +∞, not an error, and the
RSI formula collapses to exactly 100.  (Only when every trailing delta is
zero does 0/0 produce NaN and hence a null report.) -/
theorem c1_zero_loss_reports_100 (t p : String) (h : Hist)
    (hlen : 15 ≤ h.close.length)
    (hvol : h.volume ≠ [])
    (hnn : ∀ x ∈ (diffP h.close).drop (h.close.length - 14),
      x.isNum = true ∧ x.ltB (PVal.num 0) = false)
    (hpos : ∃ x ∈ (diffP h.close).drop (h.close.length - 14),
      (PVal.num 0).ltB x = true) :
    (get_technical_indicators t p h).rsi? =
      some ⟨some (PVal.num 100), some "overbought"⟩ := by
  have hcne : h.close ≠ [] := by
    apply List.ne_nil_of_length_pos
    omega
  obtain ⟨c, hcl⟩ := getLast?_exists hcne
  obtain ⟨v, hvl⟩ := getLast?_exists hvol
  rw [get_rsi?_eq t p h c v hcl hvl]
  have hrsi : calculate_rsi h.close 14 = some (PVal.num 100) := by
    rw [calculate_rsi_eq_last 14 h.close hcne]
    have h14 : 14 ≤ h.close.length := by omega
    simp only [if_pos h14]
    rw [← List.map_drop whereGtZero (diffP h.close) (h.close.length - 14),
      ← List.map_drop (fun v => (whereLtZero v).neg) (diffP h.close)
        (h.close.length - 14)]
    have hGnn : ∀ y ∈ ((diffP h.close).drop (h.close.length - 14)).map whereGtZero,
        ∃ q : ℚ, y = PVal.num q ∧ 0 ≤ q := by
      intro y hy
      obtain ⟨x, hx, rfl⟩ := List.mem_map.mp hy
      obtain ⟨hnum, hneg⟩ := hnn x hx
      cases x with
      | num q =>
        by_cases h0 : 0 < q
        · refine ⟨q, ?_, le_of_lt h0⟩
          simp [whereGtZero, PVal.gtB, PVal.ltB, h0]
        · refine ⟨0, ?_, le_refl 0⟩
          simp [whereGtZero, PVal.gtB, PVal.ltB, h0]
      | pinf => simp [PVal.isNum] at hnum
      | ninf => simp [PVal.isNum] at hnum
      | nan => simp [PVal.isNum] at hnum
    have hGpos : ∃ q : ℚ,
        PVal.num q ∈ ((diffP h.close).drop (h.close.length - 14)).map whereGtZero
        ∧ 0 < q := by
      obtain ⟨x, hx, hxpos⟩ := hpos
      obtain ⟨hnum, _⟩ := hnn x hx
      cases x with
      | num q =>
        have hq : 0 < q := by simpa [PVal.ltB] using hxpos
        refine ⟨q, List.mem_map.mpr ⟨PVal.num q, hx, ?_⟩, hq⟩
        simp [whereGtZero, PVal.gtB, PVal.ltB, hq]
      | pinf => simp [PVal.isNum] at hnum
      | ninf => simp [PVal.isNum] at hnum
      | nan => simp [PVal.isNum] at hnum
    have hLzero : ∀ y ∈ ((diffP h.close).drop (h.close.length - 14)).map
        (fun v => (whereLtZero v).neg), y = PVal.num 0 := by
      intro y hy
      obtain ⟨x, hx, rfl⟩ := List.mem_map.mp hy
      obtain ⟨hnum, hneg⟩ := hnn x hx
      cases x with
      | num q =>
        have hq : ¬ q < 0 := by simpa [PVal.ltB] using hneg
        show (whereLtZero (PVal.num q)).neg = PVal.num 0
        simp [whereLtZero, PVal.ltB, hq, PVal.neg]
      | pinf => simp [PVal.isNum] at hnum
      | ninf => simp [PVal.isNum] at hnum
      | nan => simp [PVal.isNum] at hnum
    have hLne : ((diffP h.close).drop (h.close.length - 14)).map
        (fun v => (whereLtZero v).neg) ≠ [] := by
      obtain ⟨x, hx, _⟩ := hpos
      intro hemp
      rw [List.map_eq_nil_iff] at hemp
      rw [hemp] at hx
      exact List.not_mem_nil x hx
    obtain ⟨g, hgm, hgpos⟩ := meanWin_pos _ hGnn hGpos
    rw [hgm, meanWin_all_zero _ hLne hLzero]
    have hdiv : (PVal.num g).div (PVal.num 0) = PVal.pinf := by
      simp [PVal.div, hgpos]
    rw [hdiv]
    show some (PVal.num (100 + -0)) = some (PVal.num 100)
    norm_num
  rw [hrsi]
  decide

/-- C1 witness: the amended theorem applied to the concrete 30-bar rising
frame (a second instantiation, distinct from the counterexample's). -/
theorem c1_witness :
    (get_technical_indicators "W" "1y" risingHist).rsi? =
      some ⟨some (PVal.num 100), some "overbought"⟩ :=
  c1_zero_loss_reports_100 "W" "1y" risingHist (by decide) (by decide)
    (by decide) (by decide)

/-- C6 counterexample: fifteen strictly falling closes drive RSI to
exactly 0.0; the reported value is 0 (non-null) but the signal is null,
not "oversold": the source's `rsi and rsi < 30` uses Python truthiness
and 0.0 is falsy.  This also refutes "signal is null exactly when value
is null". -/
theorem c6_counterexample :
    (get_technical_indicators "TEST" "3mo" fallingHist).rsi?
      = some ⟨some (PVal.num 0), none⟩ := by decide

/-- C6 (amended): in every report, the RSI signal is null exactly when
the value is null or exactly zero (Python truthiness of 0.0); for a
non-zero finite value q the signal is "oversold" iff q < 30, "overbought"
iff q > 70, and "neutral" iff 30 ≤ q ≤ 70. -/
theorem c6_signal_taxonomy (t p : String) (h : Hist) (g : RsiGroup)
    (hg : (get_technical_indicators t p h).rsi? = some g) :
    ((g.signal = none ↔ (g.value = none ∨ g.value = some (PVal.num 0)))
     ∧ ∀ q : ℚ, g.value = some (PVal.num q) → q ≠ 0 →
        ((g.signal = some "oversold" ↔ q < 30)
         ∧ (g.signal = some "overbought" ↔ 70 < q)
         ∧ (g.signal = some "neutral" ↔ (30 ≤ q ∧ q ≤ 70)))) := by
  by_cases hc : h.close = []
  · rw [show get_technical_indicators t p h =
        TIResult.err "No historical data available" t p from
      get_empty_close defaultBodies t p h hc] at hg
    simp [TIResult.rsi?, TIResult.indicators?] at hg
  · by_cases hv : h.volume = []
    · rw [show get_technical_indicators t p h =
          TIResult.err "single positional indexer is out-of-bounds" t p from
        get_empty_volume defaultBodies t p h hc hv] at hg
      simp [TIResult.rsi?, TIResult.indicators?] at hg
    · obtain ⟨c, hcl⟩ := getLast?_exists hc
      obtain ⟨v, hvl⟩ := getLast?_exists hv
      rw [get_rsi?_eq t p h c v hcl hvl] at hg
      simp only [Option.some.injEq] at hg
      have hval : g.value = calculate_rsi h.close 14 := by rw [← hg]
      have hsig : g.signal = rsiSignal (calculate_rsi h.close 14) := by rw [← hg]
      refine ⟨?_, ?_⟩
      · rw [hsig, hval]
        exact rsiSignal_eq_none_iff _
          (fun w hw => calculate_rsi_not_nan 14 h.close w hw)
      · intro q hqv hq0
        rw [hval] at hqv
        rw [hsig, hqv]
        exact rsiSignal_num_iffs q hq0

/-- C6 witness: the amended theorem applied to the 14-bar zigzag frame,
whose RSI is 600/13 (neutral range). -/
theorem c6_witness :
    ((some "neutral" = (none : Option String))
        ↔ (some (PVal.num (600 / 13)) = (none : Option PVal)
           ∨ some (PVal.num (600 / 13)) = some (PVal.num 0)))
    ∧ (some "neutral" = some "oversold" ↔ (600 / 13 : ℚ) < 30) :=
  have happ := c6_signal_taxonomy "Z" "3mo" zigzagHist
    ⟨some (PVal.num (600 / 13)), some "neutral"⟩ (by decide)
  ⟨happ.1, (happ.2 (600 / 13) rfl (by norm_num)).1⟩

/-- C8 (confirmed): on a constant-price frame of length at least 20 the
engine computes a full report without raising; the stochastic %K (and %D)
are null — the 14-bar high-low range is zero, so %K is 0/0, NaN — while
the Bollinger bands are all defined and of zero width,
upper = middle = lower = the constant price. -/
theorem c8_flat_series_guard (t p : String) (n : Nat) (c vol : ℚ)
    (hn : 20 ≤ n) :
    (get_technical_indicators t p
        ⟨List.replicate n c, List.replicate n c, List.replicate n c,
         List.replicate n vol⟩).stoch? = some ⟨none, none⟩
    ∧ ((get_technical_indicators t p
        ⟨List.replicate n c, List.replicate n c, List.replicate n c,
         List.replicate n vol⟩).boll?).map BollingerOut.upper
        = some (some (PVal.num c))
    ∧ ((get_technical_indicators t p
        ⟨List.replicate n c, List.replicate n c, List.replicate n c,
         List.replicate n vol⟩).boll?).map BollingerOut.middle
        = some (some (PVal.num c))
    ∧ ((get_technical_indicators t p
        ⟨List.replicate n c, List.replicate n c, List.replicate n c,
         List.replicate n vol⟩).boll?).map BollingerOut.lower
        = some (some (PVal.num c)) := by
  have hnpos : 0 < n := by omega
  have hsto := get_stoch?_eq t p
    ⟨List.replicate n c, List.replicate n c, List.replicate n c,
     List.replicate n vol⟩ c vol
    (getLast?_replicate n hnpos c) (getLast?_replicate n hnpos vol)
  have hbol := get_boll?_eq t p
    ⟨List.replicate n c, List.replicate n c, List.replicate n c,
     List.replicate n vol⟩ c vol
    (getLast?_replicate n hnpos c) (getLast?_replicate n hnpos vol)
  refine ⟨?_, ?_, ?_, ?_⟩
  · rw [hsto]
    rw [show (⟨List.replicate n c, List.replicate n c, List.replicate n c,
        List.replicate n vol⟩ : Hist).high = List.replicate n c from rfl,
      show (⟨List.replicate n c, List.replicate n c, List.replicate n c,
        List.replicate n vol⟩ : Hist).low = List.replicate n c from rfl,
      show (⟨List.replicate n c, List.replicate n c, List.replicate n c,
        List.replicate n vol⟩ : Hist).close = List.replicate n c from rfl]
    rw [calculate_stochastic_const n c (by omega)]
  · rw [hbol]
    rw [show (⟨List.replicate n c, List.replicate n c, List.replicate n c,
        List.replicate n vol⟩ : Hist).close = List.replicate n c from rfl]
    rw [calculate_bollinger_const n c hn]
    rfl
  · rw [hbol]
    rw [show (⟨List.replicate n c, List.replicate n c, List.replicate n c,
        List.replicate n vol⟩ : Hist).close = List.replicate n c from rfl]
    rw [calculate_bollinger_const n c hn]
    rfl
  · rw [hbol]
    rw [show (⟨List.replicate n c, List.replicate n c, List.replicate n c,
        List.replicate n vol⟩ : Hist).close = List.replicate n c from rfl]
    rw [calculate_bollinger_const n c hn]
    rfl

/-- C8 witness: the theorem applied at the minimal length 20 with price 5
and volume 1. -/
theorem c8_witness :
    (get_technical_indicators "FLAT" "3mo"
        ⟨List.replicate 20 5, List.replicate 20 5, List.replicate 20 5,
         List.replicate 20 1⟩).stoch? = some ⟨none, none⟩
    ∧ ((get_technical_indicators "FLAT" "3mo"
        ⟨List.replicate 20 5, List.replicate 20 5, List.replicate 20 5,
         List.replicate 20 1⟩).boll?).map BollingerOut.upper
        = some (some (PVal.num 5))
    ∧ ((get_technical_indicators "FLAT" "3mo"
        ⟨List.replicate 20 5, List.replicate 20 5, List.replicate 20 5,
         List.replicate 20 1⟩).boll?).map BollingerOut.middle
        = some (some (PVal.num 5))
    ∧ ((get_technical_indicators "FLAT" "3mo"
        ⟨List.replicate 20 5, List.replicate 20 5, List.replicate 20 5,
         List.replicate 20 1⟩).boll?).map BollingerOut.lower
        = some (some (PVal.num 5)) :=
  c8_flat_series_guard "FLAT" "3mo" 20 5 1 (by decide)

/-- C9 (confirmed): with the aggregator stated parametrically in the
seven calculator bodies, injecting a fault (an uncaught exception,
modelled as `Except.error e`) into any single body yields the null
default for that calculator's report group only, while every other group
of the report is identical to the unfaulted run — one calculator's fault
never blanks the rest of the report.  (For the SMA fault the derived
price_vs_sma fields, which are computed from the SMA values, null out
with it; for the EMA fault they are unchanged.) -/
theorem c9_fault_isolation (B : CalcBodies) (t p : String) (h : Hist)
    (e : String) (hc : h.close ≠ []) (hv : h.volume ≠ []) :
    (((get_technical_indicators_with (B.withRsiB (fun _ => Except.error e)) t p h).rsi?
        = some ⟨none, none⟩
      ∧ (get_technical_indicators_with (B.withRsiB (fun _ => Except.error e)) t p h).macd?
        = (get_technical_indicators_with B t p h).macd?
      ∧ (get_technical_indicators_with (B.withRsiB (fun _ => Except.error e)) t p h).movingAverages?
        = (get_technical_indicators_with B t p h).movingAverages?
      ∧ (get_technical_indicators_with (B.withRsiB (fun _ => Except.error e)) t p h).boll?
        = (get_technical_indicators_with B t p h).boll?
      ∧ (get_technical_indicators_with (B.withRsiB (fun _ => Except.error e)) t p h).stoch?
        = (get_technical_indicators_with B t p h).stoch?
      ∧ (get_technical_indicators_with (B.withRsiB (fun _ => Except.error e)) t p h).atr?
        = (get_technical_indicators_with B t p h).atr?
      ∧ (get_technical_indicators_with (B.withRsiB (fun _ => Except.error e)) t p h).volume?
        = (get_technical_indicators_with B t p h).volume?)
     ∧ ((get_technical_indicators_with (B.withMacdB (fun _ => Except.error e)) t p h).macd?
        = some ⟨none, none, none⟩
      ∧ (get_technical_indicators_with (B.withMacdB (fun _ => Except.error e)) t p h).rsi?
        = (get_technical_indicators_with B t p h).rsi?
      ∧ (get_technical_indicators_with (B.withMacdB (fun _ => Except.error e)) t p h).movingAverages?
        = (get_technical_indicators_with B t p h).movingAverages?
      ∧ (get_technical_indicators_with (B.withMacdB (fun _ => Except.error e)) t p h).boll?
        = (get_technical_indicators_with B t p h).boll?
      ∧ (get_technical_indicators_with (B.withMacdB (fun _ => Except.error e)) t p h).stoch?
        = (get_technical_indicators_with B t p h).stoch?
      ∧ (get_technical_indicators_with (B.withMacdB (fun _ => Except.error e)) t p h).atr?
        = (get_technical_indicators_with B t p h).atr?
      ∧ (get_technical_indicators_with (B.withMacdB (fun _ => Except.error e)) t p h).volume?
        = (get_technical_indicators_with B t p h).volume?)
     ∧ ((get_technical_indicators_with (B.withSmaB (fun _ => Except.error e)) t p h).sma?
        = some ⟨none, none, none, none⟩
      ∧ ((get_technical_indicators_with (B.withSmaB (fun _ => Except.error e)) t p h).movingAverages?).map
          MovingAveragesGroup.price_vs_sma20 = some none
      ∧ ((get_technical_indicators_with (B.withSmaB (fun _ => Except.error e)) t p h).movingAverages?).map
          MovingAveragesGroup.price_vs_sma50 = some none
      ∧ ((get_technical_indicators_with (B.withSmaB (fun _ => Except.error e)) t p h).movingAverages?).map
          MovingAveragesGroup.price_vs_sma200 = some none
      ∧ (get_technical_indicators_with (B.withSmaB (fun _ => Except.error e)) t p h).rsi?
        = (get_technical_indicators_with B t p h).rsi?
      ∧ (get_technical_indicators_with (B.withSmaB (fun _ => Except.error e)) t p h).macd?
        = (get_technical_indicators_with B t p h).macd?
      ∧ (get_technical_indicators_with (B.withSmaB (fun _ => Except.error e)) t p h).ema?
        = (get_technical_indicators_with B t p h).ema?
      ∧ (get_technical_indicators_with (B.withSmaB (fun _ => Except.error e)) t p h).boll?
        = (get_technical_indicators_with B t p h).boll?
      ∧ (get_technical_indicators_with (B.withSmaB (fun _ => Except.error e)) t p h).stoch?
        = (get_technical_indicators_with B t p h).stoch?
      ∧ (get_technical_indicators_with (B.withSmaB (fun _ => Except.error e)) t p h).atr?
        = (get_technical_indicators_with B t p h).atr?
      ∧ (get_technical_indicators_with (B.withSmaB (fun _ => Except.error e)) t p h).volume?
        = (get_technical_indicators_with B t p h).volume?)
     ∧ ((get_technical_indicators_with (B.withEmaB (fun _ => Except.error e)) t p h).ema?
        = some ⟨none, none, none⟩
      ∧ (get_technical_indicators_with (B.withEmaB (fun _ => Except.error e)) t p h).rsi?
        = (get_technical_indicators_with B t p h).rsi?
      ∧ (get_technical_indicators_with (B.withEmaB (fun _ => Except.error e)) t p h).macd?
        = (get_technical_indicators_with B t p h).macd?
      ∧ (get_technical_indicators_with (B.withEmaB (fun _ => Except.error e)) t p h).sma?
        = (get_technical_indicators_with B t p h).sma?
      ∧ ((get_technical_indicators_with (B.withEmaB (fun _ => Except.error e)) t p h).movingAverages?).map
          MovingAveragesGroup.price_vs_sma20
        = ((get_technical_indicators_with B t p h).movingAverages?).map
          MovingAveragesGroup.price_vs_sma20
      ∧ ((get_technical_indicators_with (B.withEmaB (fun _ => Except.error e)) t p h).movingAverages?).map
          MovingAveragesGroup.price_vs_sma50
        = ((get_technical_indicators_with B t p h).movingAverages?).map
          MovingAveragesGroup.price_vs_sma50
      ∧ ((get_technical_indicators_with (B.withEmaB (fun _ => Except.error e)) t p h).movingAverages?).map
          MovingAveragesGroup.price_vs_sma200
        = ((get_technical_indicators_with B t p h).movingAverages?).map
          MovingAveragesGroup.price_vs_sma200
      ∧ (get_technical_indicators_with (B.withEmaB (fun _ => Except.error e)) t p h).boll?
        = (get_technical_indicators_with B t p h).boll?
      ∧ (get_technical_indicators_with (B.withEmaB (fun _ => Except.error e)) t p h).stoch?
        = (get_technical_indicators_with B t p h).stoch?
      ∧ (get_technical_indicators_with (B.withEmaB (fun _ => Except.error e)) t p h).atr?
        = (get_technical_indicators_with B t p h).atr?
      ∧ (get_technical_indicators_with (B.withEmaB (fun _ => Except.error e)) t p h).volume?
        = (get_technical_indicators_with B t p h).volume?)
     ∧ ((get_technical_indicators_with (B.withBollB (fun _ => Except.error e)) t p h).boll?
        = some ⟨none, none, none, none⟩
      ∧ (get_technical_indicators_with (B.withBollB (fun _ => Except.error e)) t p h).rsi?
        = (get_technical_indicators_with B t p h).rsi?
      ∧ (get_technical_indicators_with (B.withBollB (fun _ => Except.error e)) t p h).macd?
        = (get_technical_indicators_with B t p h).macd?
      ∧ (get_technical_indicators_with (B.withBollB (fun _ => Except.error e)) t p h).movingAverages?
        = (get_technical_indicators_with B t p h).movingAverages?
      ∧ (get_technical_indicators_with (B.withBollB (fun _ => Except.error e)) t p h).stoch?
        = (get_technical_indicators_with B t p h).stoch?
      ∧ (get_technical_indicators_with (B.withBollB (fun _ => Except.error e)) t p h).atr?
        = (get_technical_indicators_with B t p h).atr?
      ∧ (get_technical_indicators_with (B.withBollB (fun _ => Except.error e)) t p h).volume?
        = (get_technical_indicators_with B t p h).volume?)
     ∧ ((get_technical_indicators_with (B.withStochB (fun _ _ _ => Except.error e)) t p h).stoch?
        = some ⟨none, none⟩
      ∧ (get_technical_indicators_with (B.withStochB (fun _ _ _ => Except.error e)) t p h).rsi?
        = (get_technical_indicators_with B t p h).rsi?
      ∧ (get_technical_indicators_with (B.withStochB (fun _ _ _ => Except.error e)) t p h).macd?
        = (get_technical_indicators_with B t p h).macd?
      ∧ (get_technical_indicators_with (B.withStochB (fun _ _ _ => Except.error e)) t p h).movingAverages?
        = (get_technical_indicators_with B t p h).movingAverages?
      ∧ (get_technical_indicators_with (B.withStochB (fun _ _ _ => Except.error e)) t p h).boll?
        = (get_technical_indicators_with B t p h).boll?
      ∧ (get_technical_indicators_with (B.withStochB (fun _ _ _ => Except.error e)) t p h).atr?
        = (get_technical_indicators_with B t p h).atr?
      ∧ (get_technical_indicators_with (B.withStochB (fun _ _ _ => Except.error e)) t p h).volume?
        = (get_technical_indicators_with B t p h).volume?)
     ∧ ((get_technical_indicators_with (B.withAtrB (fun _ _ _ => Except.error e)) t p h).atr?
        = some none
      ∧ (get_technical_indicators_with (B.withAtrB (fun _ _ _ => Except.error e)) t p h).rsi?
        = (get_technical_indicators_with B t p h).rsi?
      ∧ (get_technical_indicators_with (B.withAtrB (fun _ _ _ => Except.error e)) t p h).macd?
        = (get_technical_indicators_with B t p h).macd?
      ∧ (get_technical_indicators_with (B.withAtrB (fun _ _ _ => Except.error e)) t p h).movingAverages?
        = (get_technical_indicators_with B t p h).movingAverages?
      ∧ (get_technical_indicators_with (B.withAtrB (fun _ _ _ => Except.error e)) t p h).boll?
        = (get_technical_indicators_with B t p h).boll?
      ∧ (get_technical_indicators_with (B.withAtrB (fun _ _ _ => Except.error e)) t p h).stoch?
        = (get_technical_indicators_with B t p h).stoch?
      ∧ (get_technical_indicators_with (B.withAtrB (fun _ _ _ => Except.error e)) t p h).volume?
        = (get_technical_indicators_with B t p h).volume?)) := by
  obtain ⟨c, hcl⟩ := getLast?_exists hc
  obtain ⟨v, hvl⟩ := getLast?_exists hv
  have hrep : ∀ B' : CalcBodies, get_technical_indicators_with B' t p h
      = TIResult.report (assembleFrom B' t p h c v) :=
    fun B' => get_with_eq_report B' t p h c v hcl hvl
  simp only [hrep]
  and_intros <;> rfl

/-- C9 witness: a fault injected into the RSI body alone, on a concrete
1-bar frame: the rsi group nulls out while the macd group matches the
unfaulted run. -/
theorem c9_witness :
    (get_technical_indicators_with
        (defaultBodies.withRsiB (fun _ => Except.error "boom"))
        "T" "1mo" ⟨[1], [1], [1], [1]⟩).rsi? = some ⟨none, none⟩
    ∧ (get_technical_indicators_with
        (defaultBodies.withRsiB (fun _ => Except.error "boom"))
        "T" "1mo" ⟨[1], [1], [1], [1]⟩).macd? =
      (get_technical_indicators_with defaultBodies "T" "1mo"
        ⟨[1], [1], [1], [1]⟩).macd? :=
  have happ := c9_fault_isolation defaultBodies "T" "1mo" ⟨[1], [1], [1], [1]⟩
    "boom" (by decide) (by decide)
  ⟨happ.1.1, happ.1.2.1⟩

end ClaimTheorems

end StockSurge
